import Mathlib

/-!
Shallow embedding of the material-trial request lifecycle of this repository.

The entity model follows `src/types/index.ts`; the storage layer follows
`src/utils/storage.ts` (`storageUtils`); each modal submit handler
(`CMKReviewModal`, `PPCModal`, `ProcurementModal`, `EvaluationModal`,
`FinalCMKModal`, `RequestModal`) is embedded as a function from the store,
the modal's request prop and the form payload to either a toast error
(the handler returns early without touching storage) or the committed store.
`Dashboard.handleView` (src/pages/Dashboard.tsx), which decides which modal
a (role, status) pair opens, is embedded as `handleView`, and one committed
user interaction of the running app is the `Step` relation.

ISO-8601 timestamps are modeled as naturals (the embedding only ever
compares them); `generateId` (wall clock + randomness) is modeled by
passing the generated id as a parameter.  The BIS/IEC cost detail fields
(floating-point numbers that no lifecycle transition reads or writes) are
omitted from the record.
-/

namespace MaterialTrial

/-- Lifecycle status: exactly the `MaterialRequest.status` union in
`src/types/index.ts`. -/
inductive Status where
  | pending_cmk
  | approved_trial
  | approved_pilot
  | rejected
  | pending_ppc
  | pending_procurement
  | ordered
  | delivered
  | pending_evaluation
  | pending_final_cmk
  | completed
deriving DecidableEq, Repr

/-- User roles, from the `User` interface in `src/types/index.ts`. -/
inductive Role where
  | requestor
  | cmk
  | ppc
  | procurement
  | evaluation
  | admin
deriving DecidableEq, Repr

/-- The parts of the `User` record the lifecycle reads. -/
structure User where
  id : String
  role : Role
  name : String
deriving DecidableEq, Repr

/-- Embeds `AuditEntry` from `src/types/index.ts`. -/
structure AuditEntry where
  id : String
  action : String
  userId : String
  timestamp : Nat
  details : String
deriving DecidableEq, Repr

/-- The `decision` literal union of `cmkDecision`. -/
inductive CmkDecisionKind where
  | trial
  | pilot
  | rejected
deriving DecidableEq, Repr

/-- The `cmkDecision` block. -/
structure CmkDecision where
  decision : CmkDecisionKind
  reason : Option String
  plant : Option String
  quantityRevised : Option String
  approvedBy : String
  approvedAt : Nat
deriving DecidableEq, Repr

/-- The `ppcData` block. -/
structure PpcData where
  prNumber : String
  materialCode : String
  description : String
  enteredBy : String
  enteredAt : Nat
deriving DecidableEq, Repr

/-- The `procurementData` block (`orderType` kept as a string payload,
as the source casts the select value). -/
structure ProcurementData where
  orderType : Option String
  estimatedDelivery : Option String
  remarks : Option String
  deliveredAt : Option Nat
  updatedBy : String
  updatedAt : Nat
deriving DecidableEq, Repr

/-- The `storesData` block. -/
structure StoresData where
  receivedBy : Option String
  documents : List String
  updatedBy : String
  updatedAt : Nat
deriving DecidableEq, Repr

/-- The `evaluationData` block. -/
structure EvaluationData where
  received : Bool
  completionDate : Option String
  report : Option String
  updatedBy : String
  updatedAt : Nat
deriving DecidableEq, Repr

/-- The `decision` literal union of `finalCmkReview`. -/
inductive FinalDecisionKind where
  | approved
  | rejected
deriving DecidableEq, Repr

/-- The `finalCmkReview` block. -/
structure FinalCmkReview where
  decision : FinalDecisionKind
  reason : Option String
  comments : Option String
  reviewedBy : String
  reviewedAt : Nat
deriving DecidableEq, Repr

/-- Embeds `MaterialRequest` from `src/types/index.ts` (BIS/IEC cost numbers,
never read by any transition, omitted). -/
structure MaterialRequest where
  id : String
  dateReceived : String
  materialCategory : String
  materialDetails : String
  supplierName : String
  quantity : Option String
  trialAtPlant : Bool
  purpose : String
  bisRequired : Bool
  iecRequired : Bool
  status : Status
  requestorId : String
  plant : Option String
  cmkDecision : Option CmkDecision
  ppcData : Option PpcData
  procurementData : Option ProcurementData
  storesData : Option StoresData
  evaluationData : Option EvaluationData
  finalCmkReview : Option FinalCmkReview
  auditTrail : List AuditEntry
deriving DecidableEq, Repr

/-- Embeds `AppSettings` from `src/types/index.ts`. -/
structure AppSettings where
  materialCategories : List String
  purposes : List String
deriving DecidableEq, Repr

/-- The default settings literal in `storageUtils.getSettings`. -/
def defaultSettings : AppSettings :=
  { materialCategories := ["Cell", "Encapsulant", "Glass", "Junction Box",
      "Backsheet", "Flux", "Sealant", "Connector", "FG Module"],
    purposes := ["Quality Improvement", "Alternate Vendor Development",
      "Cost Reduction", "Performance Enhancement"] }

/-- The persisted state: the request list under the `materialRequests`
key and the settings under `appSettings`. -/
structure Store where
  requests : List MaterialRequest
  settings : AppSettings
deriving DecidableEq, Repr

/-- The store before any request is saved. -/
def emptyStore : Store := { requests := [], settings := defaultSettings }

/-- Replace the first element satisfying `p` by its image under `f`,
returning the new list and the new element; `none` when nothing matches.
This is the `findIndex` / `requests[i] = ...` idiom of `storageUtils`. -/
def setFirst (p : α → Bool) (f : α → α) : List α → Option (List α × α)
  | [] => none
  | x :: xs =>
    if p x then some (f x :: xs, f x)
    else
      match setFirst p f xs with
      | some (ys, y) => some (x :: ys, y)
      | none => none

/-- Embeds `storageUtils.getRequests`. -/
def getRequests (s : Store) : List MaterialRequest := s.requests

/-- Embeds `requests.find(r => r.id === id)`. -/
def findRequest (s : Store) (id : String) : Option MaterialRequest :=
  (getRequests s).find? (fun r => r.id == id)

/-- Embeds `storageUtils.saveRequest`: replace the record at the first index
with the same id, else append. -/
def saveRequest (s : Store) (request : MaterialRequest) : Store :=
  match setFirst (fun r => r.id == request.id) (fun _ => request) (getRequests s) with
  | some (rs, _) => { s with requests := rs }
  | none => { s with requests := getRequests s ++ [request] }

/-- Embeds `storageUtils.updateRequest`: merge `updates` into the record at the
first index with the given id; also return the updated record (`null`
becomes `none`).  A call site's `Partial<MaterialRequest>` literal is
embedded as the corresponding record-update function. -/
def updateRequest (s : Store) (id : String) (updates : MaterialRequest → MaterialRequest) :
    Store × Option MaterialRequest :=
  match setFirst (fun r => r.id == id) updates (getRequests s) with
  | some (rs, r') => ({ s with requests := rs }, some r')
  | none => (s, none)

/-- An audit entry before the storage layer assigns its id
(`Omit<AuditEntry, 'id'>`). -/
structure AuditEntryInput where
  action : String
  userId : String
  timestamp : Nat
  details : String
deriving DecidableEq, Repr

/-- The entry `storageUtils.addAuditEntry` builds from its input and the
generated id. -/
def mkEntry (e : AuditEntryInput) (genId : String) : AuditEntry :=
  { id := genId, action := e.action, userId := e.userId,
    timestamp := e.timestamp, details := e.details }

/-- Embeds `storageUtils.addAuditEntry`: find the request, push the entry onto
its `auditTrail`, save it back; no-op when the id does not resolve. -/
def addAuditEntry (s : Store) (requestId : String) (e : AuditEntryInput) (genId : String) :
    Store :=
  match findRequest s requestId with
  | some request =>
      saveRequest s { request with auditTrail := request.auditTrail ++ [mkEntry e genId] }
  | none => s

/-- The two reference-value sets of `AppSettings`, the `type` argument of
`storageUtils.addToDropdown`. -/
inductive DropdownKey where
  | materialCategories
  | purposes
deriving DecidableEq, Repr

/-- Embeds `storageUtils.addToDropdown`: push the value only when it is not
already present. -/
def addToDropdown (s : Store) (key : DropdownKey) (value : String) : Store :=
  match key with
  | .materialCategories =>
      if s.settings.materialCategories.contains value then s
      else { s with settings :=
        { s.settings with materialCategories := s.settings.materialCategories ++ [value] } }
  | .purposes =>
      if s.settings.purposes.contains value then s
      else { s with settings :=
        { s.settings with purposes := s.settings.purposes ++ [value] } }

/-- The runtime's `.trim()` embedded as an executable function on the
underlying character list: drop leading and trailing whitespace.  (The
library `String.trim` is definitionally opaque to the kernel, so the
handlers below use this equivalent form.) -/
def jsTrim (s : String) : String :=
  String.mk (((s.data.dropWhile fun c => c.isWhitespace).reverse.dropWhile
    fun c => c.isWhitespace).reverse)

/-- A destructive toast: how a modal handler reports a failed guard and
returns without touching storage. -/
structure ToastError where
  title : String
  description : String
deriving DecidableEq, Repr

/-- The store the app is left with after a handler runs: a guard failure
returns early, so the store is unchanged. -/
def applyResult (s : Store) : Except ToastError Store → Store
  | .ok s' => s'
  | .error _ => s

/-- Rendering of a CMK decision into the audit/toast text
(template literal interpolation of the `decision` state). -/
def CmkDecisionKind.str : CmkDecisionKind → String
  | .trial => "trial"
  | .pilot => "pilot"
  | .rejected => "rejected"

/-- The `Partial<MaterialRequest>` literal of `CMKReviewModal.handleSubmit`
(note that on rejection the `plant` key is present with value `undefined`,
so the merge clears `plant`, and `quantity` is always overwritten). -/
def cmkUpd (req : MaterialRequest) (user : User) (decision : CmkDecisionKind)
    (plant quantityRevised : String) (reason : String) (now : Nat) :
    MaterialRequest → MaterialRequest := fun r =>
  { r with
    status := if decision = .rejected then Status.rejected else Status.pending_ppc,
    cmkDecision := some
      { decision := decision,
        reason := if decision = .rejected then some reason else none,
        plant := if decision ≠ .rejected then some plant else none,
        quantityRevised :=
          if some quantityRevised ≠ req.quantity then some quantityRevised else none,
        approvedBy := user.id,
        approvedAt := now },
    plant := if decision ≠ .rejected then some plant else none,
    quantity := some quantityRevised }

/-- The audit-entry input of `CMKReviewModal.handleSubmit`. -/
def cmkAudit (user : User) (decision : CmkDecisionKind) (plant reason : String)
    (now : Nat) : AuditEntryInput :=
  { action := "CMK " ++ (if decision = .rejected then "Rejected" else "Approved") ++ " Request",
    userId := user.id,
    timestamp := now,
    details := "Request "
      ++ (if decision = .rejected then "rejected" else "approved for " ++ decision.str)
      ++ " by " ++ user.name
      ++ (if decision ≠ .rejected then " at plant " ++ plant else "")
      ++ (if reason ≠ "" then ". Reason: " ++ reason else "") }

/-- Embeds `CMKReviewModal.handleSubmit`: guard, then `updateRequest` followed by
`addAuditEntry`. -/
def cmkReviewSubmit (s : Store) (req : MaterialRequest) (user : User)
    (decision : CmkDecisionKind) (plant quantityRevised reason : String)
    (now : Nat) (auditId : String) : Except ToastError Store :=
  if decision = .rejected ∧ jsTrim reason = "" then
    .error { title := "Reason Required",
             description := "Please provide a reason for rejection." }
  else if (decision = .trial ∨ decision = .pilot) ∧ plant = "" then
    .error { title := "Plant Required",
             description := "Please select a plant for the trial/pilot." }
  else
    let s1 := (updateRequest s req.id (cmkUpd req user decision plant quantityRevised reason now)).1
    .ok (addAuditEntry s1 req.id (cmkAudit user decision plant reason now) auditId)

/-- The `Partial<MaterialRequest>` literal of `PPCModal.handleSubmit`. -/
def ppcUpd (user : User) (prNumber materialCode description : String) (now : Nat) :
    MaterialRequest → MaterialRequest := fun r =>
  { r with
    status := Status.pending_procurement,
    ppcData := some
      { prNumber := jsTrim prNumber,
        materialCode := jsTrim materialCode,
        description := jsTrim description,
        enteredBy := user.id,
        enteredAt := now } }

/-- The audit-entry input of `PPCModal.handleSubmit`. -/
def ppcAudit (user : User) (prNumber materialCode : String) (now : Nat) :
    AuditEntryInput :=
  { action := "PPC Data Added",
    userId := user.id,
    timestamp := now,
    details := "PR Number: " ++ prNumber ++ ", Material Code: " ++ materialCode
      ++ " added by " ++ user.name }

/-- Embeds `PPCModal.handleSubmit`: all three fields must be non-blank, else one
generic toast; on success `updateRequest` then `addAuditEntry`. -/
def ppcSubmit (s : Store) (req : MaterialRequest) (user : User)
    (prNumber materialCode description : String) (now : Nat) (auditId : String) :
    Except ToastError Store :=
  if jsTrim prNumber = "" ∨ jsTrim materialCode = "" ∨ jsTrim description = "" then
    .error { title := "All Fields Required",
             description := "Please fill in all PPC fields." }
  else
    let s1 := (updateRequest s req.id (ppcUpd user prNumber materialCode description now)).1
    .ok (addAuditEntry s1 req.id (ppcAudit user prNumber materialCode now) auditId)

/-- The two actions of `ProcurementModal`. -/
inductive ProcAction where
  | order
  | deliver
deriving DecidableEq, Repr

/-- The order-branch `Partial<MaterialRequest>` of
`ProcurementModal.handleSubmit`. -/
def procOrderUpd (user : User) (orderType estimatedDelivery remarks : String)
    (now : Nat) : MaterialRequest → MaterialRequest := fun r =>
  { r with
    status := Status.ordered,
    procurementData := some
      { orderType := some orderType,
        estimatedDelivery := some estimatedDelivery,
        remarks := some remarks,
        deliveredAt := none,
        updatedBy := user.id,
        updatedAt := now } }

/-- The deliver-branch `Partial<MaterialRequest>`: a spread of the prop's
`procurementData` (possibly `undefined`) with the delivery stamp. -/
def procDeliverUpd (req : MaterialRequest) (user : User) (now : Nat) :
    MaterialRequest → MaterialRequest := fun r =>
  { r with
    status := Status.delivered,
    procurementData := some
      { orderType := req.procurementData.bind (fun d => d.orderType),
        estimatedDelivery := req.procurementData.bind (fun d => d.estimatedDelivery),
        remarks := req.procurementData.bind (fun d => d.remarks),
        deliveredAt := some now,
        updatedBy := user.id,
        updatedAt := now } }

/-- The order-branch audit input of `ProcurementModal.handleSubmit`. -/
def procOrderAudit (user : User) (orderType estimatedDelivery : String) (now : Nat) :
    AuditEntryInput :=
  { action := "Material Ordered",
    userId := user.id,
    timestamp := now,
    details := "Order placed via " ++ orderType ++ ", estimated delivery: "
      ++ estimatedDelivery ++ " by " ++ user.name }

/-- The deliver-branch audit input of `ProcurementModal.handleSubmit`. -/
def procDeliverAudit (user : User) (now : Nat) : AuditEntryInput :=
  { action := "Material Delivered",
    userId := user.id,
    timestamp := now,
    details := "Material delivered to factory by " ++ user.name }

/-- Embeds `ProcurementModal.handleSubmit`: the source calls `addAuditEntry`
inside the branch and `updateRequest` after it, so the audit append
precedes the merge. -/
def procurementSubmit (s : Store) (req : MaterialRequest) (user : User)
    (action : ProcAction) (orderType estimatedDelivery remarks : String)
    (now : Nat) (auditId : String) : Except ToastError Store :=
  match action with
  | .order =>
    if orderType = "" ∨ estimatedDelivery = "" then
      .error { title := "Required Fields Missing",
               description := "Please select order type and estimated delivery date." }
    else
      let s1 := addAuditEntry s req.id (procOrderAudit user orderType estimatedDelivery now) auditId
      .ok (updateRequest s1 req.id (procOrderUpd user orderType estimatedDelivery remarks now)).1
  | .deliver =>
      let s1 := addAuditEntry s req.id (procDeliverAudit user now) auditId
      .ok (updateRequest s1 req.id (procDeliverUpd req user now)).1

/-- The two actions of `EvaluationModal`. -/
inductive EvalAction where
  | receive
  | report
deriving DecidableEq, Repr

/-- The receive-branch `Partial<MaterialRequest>` of
`EvaluationModal.handleSubmit` (`report` keeps the prop's value, `|| ''`). -/
def evalReceiveUpd (req : MaterialRequest) (user : User) (completionDate : String)
    (now : Nat) : MaterialRequest → MaterialRequest := fun r =>
  { r with
    status := Status.pending_evaluation,
    evaluationData := some
      { received := true,
        completionDate := some completionDate,
        report := some ((req.evaluationData.bind (fun d => d.report)).getD ""),
        updatedBy := user.id,
        updatedAt := now } }

/-- The report-branch `Partial<MaterialRequest>`: a spread of the prop's
`evaluationData` with `received`, `report` and the stamp overwritten. -/
def evalReportUpd (req : MaterialRequest) (user : User) (report : String)
    (now : Nat) : MaterialRequest → MaterialRequest := fun r =>
  { r with
    status := Status.completed,
    evaluationData := some
      { received := true,
        completionDate := req.evaluationData.bind (fun d => d.completionDate),
        report := some report,
        updatedBy := user.id,
        updatedAt := now } }

/-- The receive-branch audit input of `EvaluationModal.handleSubmit`. -/
def evalReceiveAudit (user : User) (completionDate : String) (now : Nat) :
    AuditEntryInput :=
  { action := "Material Received for Evaluation",
    userId := user.id,
    timestamp := now,
    details := "Material received by evaluation team, completion expected: "
      ++ completionDate ++ " by " ++ user.name }

/-- The report-branch audit input of `EvaluationModal.handleSubmit`. -/
def evalReportAudit (user : User) (now : Nat) : AuditEntryInput :=
  { action := "Evaluation Report Submitted",
    userId := user.id,
    timestamp := now,
    details := "Evaluation report submitted by " ++ user.name }

/-- Embeds `EvaluationModal.handleSubmit`: as in the source, `addAuditEntry` runs
inside the branch and `updateRequest` after the branch. -/
def evaluationSubmit (s : Store) (req : MaterialRequest) (user : User)
    (action : EvalAction) (received : Bool) (completionDate report : String)
    (now : Nat) (auditId : String) : Except ToastError Store :=
  match action with
  | .receive =>
    if received = false then
      .error { title := "Material Receipt Required",
               description := "Please confirm material receipt." }
    else if completionDate = "" then
      .error { title := "Completion Date Required",
               description := "Please provide tentative evaluation completion date." }
    else
      let s1 := addAuditEntry s req.id (evalReceiveAudit user completionDate now) auditId
      .ok (updateRequest s1 req.id (evalReceiveUpd req user completionDate now)).1
  | .report =>
    if jsTrim report = "" then
      .error { title := "Report Required",
               description := "Please upload or enter the evaluation report." }
    else
      let s1 := addAuditEntry s req.id (evalReportAudit user now) auditId
      .ok (updateRequest s1 req.id (evalReportUpd req user report now)).1

/-- The `finalReview` literal plus status of `FinalCMKModal.handleSubmit`
(`comments.trim() || undefined` keeps a non-blank trimmed comment). -/
def finalUpd (user : User) (decision : FinalDecisionKind) (comments reason : String)
    (now : Nat) : MaterialRequest → MaterialRequest := fun r =>
  { r with
    finalCmkReview := some
      { decision := decision,
        reason := if decision = .rejected then some reason else none,
        comments := if jsTrim comments = "" then none else some (jsTrim comments),
        reviewedBy := user.id,
        reviewedAt := now },
    status := if decision = .approved then Status.completed else Status.rejected }

/-- The audit input of `FinalCMKModal.handleSubmit`. -/
def finalAudit (user : User) (decision : FinalDecisionKind) (comments reason : String)
    (now : Nat) : AuditEntryInput :=
  { action := "Final CMK " ++ (if decision = .approved then "Approval" else "Rejection"),
    userId := user.id,
    timestamp := now,
    details :=
      if decision = .approved then
        "Request finally approved by CMK"
          ++ (if comments ≠ "" then " with comments: " ++ comments else "")
      else "Request rejected by CMK. Reason: " ++ reason }

/-- Embeds `FinalCMKModal.handleSubmit`: the audit entry is only added when
`updateRequest` found the record. -/
def finalCmkSubmit (s : Store) (req : MaterialRequest) (user : User)
    (decision : FinalDecisionKind) (comments reason : String)
    (now : Nat) (auditId : String) : Except ToastError Store :=
  if decision = .rejected ∧ jsTrim reason = "" then
    .error { title := "Error", description := "Please provide a reason for rejection" }
  else
    match updateRequest s req.id (finalUpd user decision comments reason now) with
    | (s1, some _) =>
        .ok (addAuditEntry s1 req.id (finalAudit user decision comments reason now) auditId)
    | (s1, none) => .ok s1

/-- The modes of `RequestModal`. -/
inductive RequestMode where
  | create
  | edit
  | view
deriving DecidableEq, Repr

/-- The intake form state of `RequestModal` (unset text fields read back
as the empty string through the source's `|| ''` defaults). -/
structure RequestFormData where
  dateReceived : String
  materialCategory : String
  materialDetails : String
  supplierName : String
  quantity : Option String
  trialAtPlant : Bool
  purpose : String
  bisRequired : Bool
  iecRequired : Bool
deriving DecidableEq, Repr

/-- The `requestData` record literal of `RequestModal.handleSubmit`.  The
literal ends with a `...request` spread, so when a request prop is present
every field built from the form is overwritten by the prop's value; only
with no prop (create mode) do the form values survive. -/
def requestDataOf (request : Option MaterialRequest) (user : User)
    (form : RequestFormData) (genId : String) : MaterialRequest :=
  match request with
  | some r => r
  | none =>
      { id := genId,
        dateReceived := form.dateReceived,
        materialCategory := form.materialCategory,
        materialDetails := form.materialDetails,
        supplierName := form.supplierName,
        quantity := form.quantity,
        trialAtPlant := form.trialAtPlant,
        purpose := form.purpose,
        bisRequired := form.bisRequired,
        iecRequired := form.iecRequired,
        status := Status.pending_cmk,
        requestorId := user.id,
        plant := none,
        cmkDecision := none,
        ppcData := none,
        procurementData := none,
        storesData := none,
        evaluationData := none,
        finalCmkReview := none,
        auditTrail := [] }

/-- The two custom-value blocks of `RequestModal.handleSubmit` as they act
on `requestData`: a chosen `Other` category or purpose with a non-empty
custom value replaces the stored field. -/
def resolveCustom (form : RequestFormData) (customCategory customPurpose : String)
    (rd : MaterialRequest) : MaterialRequest :=
  let rd1 :=
    if form.materialCategory = "Other" ∧ customCategory ≠ "" then
      { rd with materialCategory := customCategory }
    else rd
  if form.purpose = "Other" ∧ customPurpose ≠ "" then
    { rd1 with purpose := customPurpose }
  else rd1

/-- The same two blocks as they act on the store: each registers its custom
value into the matching dropdown set. -/
def dropdownEffects (form : RequestFormData) (customCategory customPurpose : String)
    (s : Store) : Store :=
  let s1 :=
    if form.materialCategory = "Other" ∧ customCategory ≠ "" then
      addToDropdown s .materialCategories customCategory
    else s
  if form.purpose = "Other" ∧ customPurpose ≠ "" then
    addToDropdown s1 .purposes customPurpose
  else s1

/-- The Created/Updated audit input of `RequestModal.handleSubmit`. -/
def requestAudit (mode : RequestMode) (user : User) (now : Nat) : AuditEntryInput :=
  { action := "Request " ++ (if mode = .create then "Created" else "Updated"),
    userId := user.id,
    timestamp := now,
    details := "Material request "
      ++ (if mode = .create then "created" else "updated") ++ " by " ++ user.name }

/-- Embeds `RequestModal.handleSubmit`: build `requestData`, resolve the two
`Other` custom values (mutating the record and the dropdown sets; the
source interleaves the record mutation and the dropdown write per block,
which touch disjoint state), `saveRequest`, then append the
Created/Updated audit entry.  The handler itself has no failure path. -/
def requestSubmit (s : Store) (request : Option MaterialRequest) (mode : RequestMode)
    (user : User) (form : RequestFormData) (customCategory customPurpose : String)
    (genId : String) (now : Nat) (auditId : String) : Store :=
  let requestData :=
    resolveCustom form customCategory customPurpose (requestDataOf request user form genId)
  let s2 := dropdownEffects form customCategory customPurpose s
  let s3 := saveRequest s2 requestData
  addAuditEntry s3 requestData.id (requestAudit mode user now) auditId

/-- The modal a view click opens, from `Dashboard.handleView`
(src/pages/Dashboard.tsx). -/
inductive ModalType where
  | view
  | cmk
  | ppc
  | procurement
  | evaluation
  | final_cmk
deriving DecidableEq, Repr

/-- Embeds `Dashboard.handleView`: role and current status pick the modal. -/
def handleView (role : Role) (st : Status) : ModalType :=
  if role = .cmk ∧ st = .pending_cmk then .cmk
  else if role = .cmk ∧ st = .pending_final_cmk then .final_cmk
  else if role = .ppc ∧ st = .pending_ppc then .ppc
  else if role = .procurement ∧ (st = .pending_procurement ∨ st = .ordered) then .procurement
  else if role = .evaluation ∧ (st = .delivered ∨ st = .pending_evaluation) then .evaluation
  else .view

/-- One committed state-changing interaction of the running app at clock
value `now`: the dashboard hands the stored request to the modal its
`handleView` (or, for create/edit, its role check) selects, and the
modal's submit handler commits.  `generateId` freshness for create is the
source's time-plus-randomness assumption, made explicit. -/
inductive Step (now : Nat) : Store → Store → Prop where
  | create (s : Store) (user : User) (form : RequestFormData)
      (cc cp genId auditId : String)
      (hrole : user.role = Role.requestor)
      (hfresh : findRequest s genId = none) :
      Step now s (requestSubmit s none RequestMode.create user form cc cp genId now auditId)
  | edit (s : Store) (req : MaterialRequest) (user : User) (form : RequestFormData)
      (cc cp genId auditId : String)
      (hrole : user.role = Role.requestor)
      (hfind : findRequest s req.id = some req) :
      Step now s (requestSubmit s (some req) RequestMode.edit user form cc cp genId now auditId)
  | cmkDecide (s : Store) (req : MaterialRequest) (user : User)
      (decision : CmkDecisionKind) (plant quantityRevised reason auditId : String)
      (s' : Store)
      (hfind : findRequest s req.id = some req)
      (hview : handleView user.role req.status = ModalType.cmk)
      (hok : cmkReviewSubmit s req user decision plant quantityRevised reason now auditId
        = Except.ok s') :
      Step now s s'
  | ppcEnter (s : Store) (req : MaterialRequest) (user : User)
      (prNumber materialCode description auditId : String) (s' : Store)
      (hfind : findRequest s req.id = some req)
      (hview : handleView user.role req.status = ModalType.ppc)
      (hok : ppcSubmit s req user prNumber materialCode description now auditId
        = Except.ok s') :
      Step now s s'
  | procurementAct (s : Store) (req : MaterialRequest) (user : User)
      (action : ProcAction) (orderType estimatedDelivery remarks auditId : String)
      (s' : Store)
      (hfind : findRequest s req.id = some req)
      (hview : handleView user.role req.status = ModalType.procurement)
      (hok : procurementSubmit s req user action orderType estimatedDelivery remarks now auditId
        = Except.ok s') :
      Step now s s'
  | evaluationAct (s : Store) (req : MaterialRequest) (user : User)
      (action : EvalAction) (received : Bool) (completionDate report auditId : String)
      (s' : Store)
      (hfind : findRequest s req.id = some req)
      (hview : handleView user.role req.status = ModalType.evaluation)
      (hok : evaluationSubmit s req user action received completionDate report now auditId
        = Except.ok s') :
      Step now s s'
  | finalReview (s : Store) (req : MaterialRequest) (user : User)
      (decision : FinalDecisionKind) (comments reason auditId : String) (s' : Store)
      (hfind : findRequest s req.id = some req)
      (hview : handleView user.role req.status = ModalType.final_cmk)
      (hok : finalCmkSubmit s req user decision comments reason now auditId
        = Except.ok s') :
      Step now s s'

/-- The reference-value set `addToDropdown` consults for a key. -/
def dropdownValues (st : AppSettings) : DropdownKey → List String
  | .materialCategories => st.materialCategories
  | .purposes => st.purposes

/-- The id column of the stored request list. -/
def requestIds (s : Store) : List String := s.requests.map (fun r => r.id)

/-- Sum of the audit-trail lengths over the whole store. -/
def totalAudit (s : Store) : Nat := (s.requests.map (fun r => r.auditTrail.length)).sum

/-- The request list splits around the first record whose id matches. -/
structure LocatedAt (s : Store) (id : String) (l₁ : List MaterialRequest)
    (a : MaterialRequest) (l₂ : List MaterialRequest) : Prop where
  split : s.requests = l₁ ++ a :: l₂
  before : ∀ x ∈ l₁, (x.id == id) = false
  here : (a.id == id) = true

/-! Concrete fixtures (the default users of the auth context, one intake
form, and single-request stores at chosen statuses) used by witnesses and
counterexamples. -/

def requestorUser : User := { id := "1", role := Role.requestor, name := "Praful Kumar" }

def cmkUser : User := { id := "2", role := Role.cmk, name := "Chandramauli Kumar" }

def ppcUser : User := { id := "3", role := Role.ppc, name := "PPC Team" }

def procUser : User := { id := "4", role := Role.procurement, name := "Procurement Team" }

def evalUser : User := { id := "6", role := Role.evaluation, name := "Evaluation Team" }

def sampleForm : RequestFormData :=
  { dateReceived := "2025-01-01", materialCategory := "Cell",
    materialDetails := "test cell", supplierName := "Acme Alpha",
    quantity := some "1 pallet", trialAtPlant := true,
    purpose := "Cost Reduction", bisRequired := false, iecRequired := false }

/-- The same intake resubmitted with a different supplier name. -/
def editForm : RequestFormData := { sampleForm with supplierName := "Acme Beta" }

/-- A stored request at the given status with one creation audit entry. -/
def sampleRequest (st : Status) : MaterialRequest :=
  { id := "R1", dateReceived := "2025-01-01", materialCategory := "Cell",
    materialDetails := "test cell", supplierName := "Acme Alpha",
    quantity := some "1 pallet", trialAtPlant := true, purpose := "Cost Reduction",
    bisRequired := false, iecRequired := false, status := st, requestorId := "1",
    plant := none, cmkDecision := none, ppcData := none, procurementData := none,
    storesData := none, evaluationData := none, finalCmkReview := none,
    auditTrail := [{ id := "a1", action := "Request Created", userId := "1",
                     timestamp := 1,
                     details := "Material request created by Praful Kumar" }] }

def sampleStore (st : Status) : Store :=
  { requests := [sampleRequest st], settings := defaultSettings }

/-- A request already ordered, with its procurement block filled. -/
def orderedRequest : MaterialRequest :=
  { sampleRequest Status.ordered with
    plant := some "P2",
    procurementData := some
      { orderType := some "air", estimatedDelivery := some "2025-03-01",
        remarks := some "", deliveredAt := none, updatedBy := "4", updatedAt := 4 } }

def orderedStore : Store := { requests := [orderedRequest], settings := defaultSettings }

/-! Decomposition lemmas for the storage layer: `find?`, `setFirst`, and
the derived shapes of `saveRequest`, `updateRequest`, `addAuditEntry`. -/

theorem find?_decomp {p : α → Bool} :
    ∀ {l : List α} {a : α}, l.find? p = some a →
      ∃ l₁ l₂, l = l₁ ++ a :: l₂ ∧ (∀ x ∈ l₁, p x = false) ∧ p a = true := by
  intro l
  induction l with
  | nil => intro a h; simp at h
  | cons x xs ih =>
    intro a h
    by_cases hp : p x
    · rw [List.find?_cons_of_pos _ hp] at h
      cases h
      exact ⟨[], xs, rfl, by simp, hp⟩
    · rw [List.find?_cons_of_neg _ hp] at h
      obtain ⟨l₁, l₂, hsplit, h1, h2⟩ := ih h
      refine ⟨x :: l₁, l₂, by rw [hsplit]; rfl, ?_, h2⟩
      intro y hy
      rcases List.mem_cons.mp hy with rfl | hy
      · exact Bool.eq_false_iff.mpr hp
      · exact h1 y hy

theorem find?_first {p : α → Bool} {l₁ : List α} {a : α} (l₂ : List α)
    (h1 : ∀ x ∈ l₁, p x = false) (h2 : p a = true) :
    (l₁ ++ a :: l₂).find? p = some a := by
  induction l₁ with
  | nil => simpa using List.find?_cons_of_pos l₂ h2
  | cons x xs ih =>
    have hx : p x = false := h1 x (by simp)
    rw [List.cons_append, List.find?_cons_of_neg _ (by simp [hx])]
    exact ih (fun y hy => h1 y (by simp [hy]))

theorem setFirst_append {p : α → Bool} {f : α → α} {l₁ : List α} {a : α} (l₂ : List α)
    (h1 : ∀ x ∈ l₁, p x = false) (h2 : p a = true) :
    setFirst p f (l₁ ++ a :: l₂) = some (l₁ ++ f a :: l₂, f a) := by
  induction l₁ with
  | nil => simp [setFirst, h2]
  | cons x xs ih =>
    have hx : p x = false := h1 x (by simp)
    simp only [List.cons_append, setFirst, hx, Bool.false_eq_true, if_false,
      List.append_eq, ih (fun y hy => h1 y (by simp [hy]))]

theorem setFirst_none {p : α → Bool} {f : α → α} :
    ∀ {l : List α}, (∀ x ∈ l, p x = false) → setFirst p f l = none := by
  intro l
  induction l with
  | nil => intro _; rfl
  | cons x xs ih =>
    intro h
    simp only [setFirst, h x (by simp), Bool.false_eq_true, if_false,
      ih (fun y hy => h y (by simp [hy]))]

theorem findRequest_located {s : Store} {id : String} {a : MaterialRequest}
    (h : findRequest s id = some a) : ∃ l₁ l₂, LocatedAt s id l₁ a l₂ := by
  obtain ⟨l₁, l₂, hsplit, h1, h2⟩ := find?_decomp h
  exact ⟨l₁, l₂, hsplit, h1, h2⟩

theorem located_findRequest {s : Store} {id : String} {l₁ a l₂}
    (h : LocatedAt s id l₁ a l₂) : findRequest s id = some a := by
  unfold findRequest getRequests
  rw [h.split]
  exact find?_first l₂ h.before h.here

theorem located_id {s : Store} {id : String} {l₁ a l₂}
    (h : LocatedAt s id l₁ a l₂) : a.id = id := by
  simpa using h.here

theorem located_mem {s : Store} {id : String} {l₁ a l₂}
    (h : LocatedAt s id l₁ a l₂) : a ∈ s.requests := by
  rw [h.split]; simp

theorem located_updateRequest {s : Store} {id : String} {l₁ a l₂}
    (h : LocatedAt s id l₁ a l₂) (upd : MaterialRequest → MaterialRequest) :
    updateRequest s id upd = ({ s with requests := l₁ ++ upd a :: l₂ }, some (upd a)) := by
  unfold updateRequest getRequests
  rw [h.split, setFirst_append l₂ h.before h.here]

theorem located_saveRequest {s : Store} {l₁ a l₂} (rd : MaterialRequest)
    (h : LocatedAt s rd.id l₁ a l₂) :
    saveRequest s rd = { s with requests := l₁ ++ rd :: l₂ } := by
  unfold saveRequest getRequests
  rw [h.split, setFirst_append l₂ h.before h.here]

theorem saveRequest_append {s : Store} (rd : MaterialRequest)
    (h : ∀ x ∈ s.requests, (x.id == rd.id) = false) :
    saveRequest s rd = { s with requests := s.requests ++ [rd] } := by
  unfold saveRequest getRequests
  rw [setFirst_none h]

theorem located_addAuditEntry {s : Store} {rid : String} {l₁ a l₂}
    (h : LocatedAt s rid l₁ a l₂) (e : AuditEntryInput) (aid : String) :
    addAuditEntry s rid e aid
      = { s with requests :=
          l₁ ++ ({ a with auditTrail := a.auditTrail ++ [mkEntry e aid] }) :: l₂ } := by
  unfold addAuditEntry
  rw [located_findRequest h]
  have hid : a.id = rid := located_id h
  refine located_saveRequest _ ⟨h.split, ?_, ?_⟩
  · intro x hx
    simpa [hid] using h.before x hx
  · simp [hid]

theorem commitA {s : Store} {rid : String} {l₁ a l₂}
    (h : LocatedAt s rid l₁ a l₂) (upd : MaterialRequest → MaterialRequest)
    (e : AuditEntryInput) (aid : String) (hid : (upd a).id = a.id) :
    addAuditEntry (updateRequest s rid upd).1 rid e aid
      = { s with requests :=
          l₁ ++ ({ upd a with auditTrail := (upd a).auditTrail ++ [mkEntry e aid] }) :: l₂ } := by
  rw [located_updateRequest h upd]
  exact located_addAuditEntry ⟨rfl, h.before, by rw [hid]; exact h.here⟩ e aid

theorem commitB {s : Store} {rid : String} {l₁ a l₂}
    (h : LocatedAt s rid l₁ a l₂) (upd : MaterialRequest → MaterialRequest)
    (e : AuditEntryInput) (aid : String) :
    (updateRequest (addAuditEntry s rid e aid) rid upd).1
      = { s with requests :=
          l₁ ++ upd ({ a with auditTrail := a.auditTrail ++ [mkEntry e aid] }) :: l₂ } := by
  rw [located_addAuditEntry h e aid]
  rw [located_updateRequest (⟨rfl, h.before, by simpa using h.here⟩ :
    LocatedAt _ rid l₁ _ l₂) upd]

theorem addToDropdown_requests (s : Store) (k : DropdownKey) (v : String) :
    (addToDropdown s k v).requests = s.requests := by
  cases k <;> simp only [addToDropdown] <;> split <;> rfl

/-! Inversions of `handleView` and of the submit handlers, and the commit
shapes of `requestSubmit`. -/

theorem handleView_cmk {role : Role} {st : Status}
    (h : handleView role st = ModalType.cmk) :
    role = Role.cmk ∧ st = Status.pending_cmk := by
  revert h; cases role <;> cases st <;> decide

theorem handleView_final {role : Role} {st : Status}
    (h : handleView role st = ModalType.final_cmk) :
    role = Role.cmk ∧ st = Status.pending_final_cmk := by
  revert h; cases role <;> cases st <;> decide

theorem handleView_ppc {role : Role} {st : Status}
    (h : handleView role st = ModalType.ppc) :
    role = Role.ppc ∧ st = Status.pending_ppc := by
  revert h; cases role <;> cases st <;> decide

theorem handleView_procurement {role : Role} {st : Status}
    (h : handleView role st = ModalType.procurement) :
    role = Role.procurement ∧ (st = Status.pending_procurement ∨ st = Status.ordered) := by
  revert h; cases role <;> cases st <;> decide

theorem handleView_evaluation {role : Role} {st : Status}
    (h : handleView role st = ModalType.evaluation) :
    role = Role.evaluation ∧ (st = Status.delivered ∨ st = Status.pending_evaluation) := by
  revert h; cases role <;> cases st <;> decide

theorem cmkReviewSubmit_ok {s : Store} {req : MaterialRequest} {user : User}
    {decision : CmkDecisionKind} {plant quantityRevised reason : String}
    {now : Nat} {auditId : String} {s' : Store}
    (h : cmkReviewSubmit s req user decision plant quantityRevised reason now auditId
      = Except.ok s') :
    s' = addAuditEntry
        (updateRequest s req.id (cmkUpd req user decision plant quantityRevised reason now)).1
        req.id (cmkAudit user decision plant reason now) auditId := by
  unfold cmkReviewSubmit at h
  split_ifs at h
  exact (Except.ok.inj h).symm

theorem ppcSubmit_ok {s : Store} {req : MaterialRequest} {user : User}
    {prNumber materialCode description : String} {now : Nat} {auditId : String} {s' : Store}
    (h : ppcSubmit s req user prNumber materialCode description now auditId = Except.ok s') :
    s' = addAuditEntry
        (updateRequest s req.id (ppcUpd user prNumber materialCode description now)).1
        req.id (ppcAudit user prNumber materialCode now) auditId := by
  unfold ppcSubmit at h
  split_ifs at h
  exact (Except.ok.inj h).symm

theorem procurementSubmit_ok {s : Store} {req : MaterialRequest} {user : User}
    {action : ProcAction} {orderType estimatedDelivery remarks : String}
    {now : Nat} {auditId : String} {s' : Store}
    (h : procurementSubmit s req user action orderType estimatedDelivery remarks now auditId
      = Except.ok s') :
    s' = (updateRequest
        (addAuditEntry s req.id (procOrderAudit user orderType estimatedDelivery now) auditId)
        req.id (procOrderUpd user orderType estimatedDelivery remarks now)).1
    ∨ s' = (updateRequest
        (addAuditEntry s req.id (procDeliverAudit user now) auditId)
        req.id (procDeliverUpd req user now)).1 := by
  cases action with
  | order =>
    left
    unfold procurementSubmit at h
    split_ifs at h
    exact (Except.ok.inj h).symm
  | deliver =>
    right
    unfold procurementSubmit at h
    exact (Except.ok.inj h).symm

theorem evaluationSubmit_ok {s : Store} {req : MaterialRequest} {user : User}
    {action : EvalAction} {received : Bool} {completionDate report : String}
    {now : Nat} {auditId : String} {s' : Store}
    (h : evaluationSubmit s req user action received completionDate report now auditId
      = Except.ok s') :
    s' = (updateRequest
        (addAuditEntry s req.id (evalReceiveAudit user completionDate now) auditId)
        req.id (evalReceiveUpd req user completionDate now)).1
    ∨ s' = (updateRequest
        (addAuditEntry s req.id (evalReportAudit user now) auditId)
        req.id (evalReportUpd req user report now)).1 := by
  cases action with
  | receive =>
    left
    simp only [evaluationSubmit] at h
    split_ifs at h
    exact (Except.ok.inj h).symm
  | report =>
    right
    simp only [evaluationSubmit] at h
    split_ifs at h
    exact (Except.ok.inj h).symm

theorem finalCmkSubmit_ok {s : Store} {req : MaterialRequest} {user : User}
    {decision : FinalDecisionKind} {comments reason : String}
    {now : Nat} {auditId : String} {s' : Store} {l₁ a l₂}
    (hloc : LocatedAt s req.id l₁ a l₂)
    (h : finalCmkSubmit s req user decision comments reason now auditId = Except.ok s') :
    s' = addAuditEntry
        (updateRequest s req.id (finalUpd user decision comments reason now)).1
        req.id (finalAudit user decision comments reason now) auditId := by
  unfold finalCmkSubmit at h
  split_ifs at h
  rw [located_updateRequest hloc] at h
  rw [located_updateRequest hloc]
  exact (Except.ok.inj h).symm

theorem resolveCustom_id (form : RequestFormData) (cc cp : String) (rd : MaterialRequest) :
    (resolveCustom form cc cp rd).id = rd.id := by
  simp only [resolveCustom]
  split <;> split <;> rfl

theorem resolveCustom_status (form : RequestFormData) (cc cp : String) (rd : MaterialRequest) :
    (resolveCustom form cc cp rd).status = rd.status := by
  simp only [resolveCustom]
  split <;> split <;> rfl

theorem resolveCustom_auditTrail (form : RequestFormData) (cc cp : String)
    (rd : MaterialRequest) :
    (resolveCustom form cc cp rd).auditTrail = rd.auditTrail := by
  simp only [resolveCustom]
  split <;> split <;> rfl

theorem dropdownEffects_requests (form : RequestFormData) (cc cp : String) (s : Store) :
    (dropdownEffects form cc cp s).requests = s.requests := by
  simp only [dropdownEffects]
  split <;> split <;> simp [addToDropdown_requests]

theorem requestSubmit_create_eq (s : Store) (user : User) (form : RequestFormData)
    (cc cp genId : String) (now : Nat) (auditId : String)
    (hfresh : findRequest s genId = none) :
    requestSubmit s none RequestMode.create user form cc cp genId now auditId
      = { dropdownEffects form cc cp s with
          requests := s.requests ++
            [{ resolveCustom form cc cp (requestDataOf none user form genId) with
               auditTrail := [mkEntry (requestAudit RequestMode.create user now) auditId] }] } := by
  have hfresh2 : s.requests.find? (fun r => r.id == genId) = none := hfresh
  have hall : ∀ x ∈ s.requests, (x.id == genId) = false := by
    intro x hx
    exact Bool.eq_false_iff.mpr (List.find?_eq_none.mp hfresh2 x hx)
  have hid : (resolveCustom form cc cp (requestDataOf none user form genId)).id = genId :=
    resolveCustom_id form cc cp _
  have hall2 : ∀ x ∈ (dropdownEffects form cc cp s).requests,
      (x.id == (resolveCustom form cc cp (requestDataOf none user form genId)).id) = false := by
    rw [dropdownEffects_requests, hid]
    exact hall
  have hsave : saveRequest (dropdownEffects form cc cp s)
      (resolveCustom form cc cp (requestDataOf none user form genId))
      = { dropdownEffects form cc cp s with
          requests := (dropdownEffects form cc cp s).requests ++
            [resolveCustom form cc cp (requestDataOf none user form genId)] } :=
    saveRequest_append _ hall2
  have hloc3 : LocatedAt
      ({ dropdownEffects form cc cp s with
         requests := (dropdownEffects form cc cp s).requests ++
           [resolveCustom form cc cp (requestDataOf none user form genId)] })
      (resolveCustom form cc cp (requestDataOf none user form genId)).id
      (dropdownEffects form cc cp s).requests
      (resolveCustom form cc cp (requestDataOf none user form genId)) [] :=
    ⟨rfl, hall2, by simp⟩
  calc requestSubmit s none RequestMode.create user form cc cp genId now auditId
      = addAuditEntry
          (saveRequest (dropdownEffects form cc cp s)
            (resolveCustom form cc cp (requestDataOf none user form genId)))
          (resolveCustom form cc cp (requestDataOf none user form genId)).id
          (requestAudit RequestMode.create user now) auditId := rfl
    _ = _ := by
        rw [hsave, located_addAuditEntry hloc3]
        simp [dropdownEffects_requests, resolveCustom_auditTrail, requestDataOf]

theorem requestSubmit_edit_eq (s : Store) (req : MaterialRequest) (mode : RequestMode)
    (user : User) (form : RequestFormData) (cc cp genId : String) (now : Nat)
    (auditId : String) {l₁ l₂}
    (hloc : LocatedAt s req.id l₁ req l₂) :
    requestSubmit s (some req) mode user form cc cp genId now auditId
      = { dropdownEffects form cc cp s with
          requests := l₁ ++
            ({ resolveCustom form cc cp req with
               auditTrail := req.auditTrail ++
                 [mkEntry (requestAudit mode user now) auditId] }) :: l₂ } := by
  have hid : (resolveCustom form cc cp (requestDataOf (some req) user form genId)).id = req.id :=
    resolveCustom_id form cc cp _
  have hloc2 : LocatedAt (dropdownEffects form cc cp s)
      (resolveCustom form cc cp (requestDataOf (some req) user form genId)).id l₁ req l₂ := by
    refine ⟨by rw [dropdownEffects_requests]; exact hloc.split, ?_, ?_⟩
    · intro x hx; rw [hid]; exact hloc.before x hx
    · rw [hid]; exact hloc.here
  have hsave : saveRequest (dropdownEffects form cc cp s)
      (resolveCustom form cc cp (requestDataOf (some req) user form genId))
      = { dropdownEffects form cc cp s with
          requests := l₁ ++ resolveCustom form cc cp (requestDataOf (some req) user form genId) :: l₂ } :=
    located_saveRequest _ hloc2
  have hloc3 : LocatedAt
      ({ dropdownEffects form cc cp s with
         requests := l₁ ++ resolveCustom form cc cp (requestDataOf (some req) user form genId) :: l₂ })
      (resolveCustom form cc cp (requestDataOf (some req) user form genId)).id
      l₁ (resolveCustom form cc cp (requestDataOf (some req) user form genId)) l₂ :=
    ⟨rfl, fun x hx => hloc2.before x hx, by simp⟩
  calc requestSubmit s (some req) mode user form cc cp genId now auditId
      = addAuditEntry
          (saveRequest (dropdownEffects form cc cp s)
            (resolveCustom form cc cp (requestDataOf (some req) user form genId)))
          (resolveCustom form cc cp (requestDataOf (some req) user form genId)).id
          (requestAudit mode user now) auditId := rfl
    _ = _ := by
        rw [hsave, located_addAuditEntry hloc3]
        simp [resolveCustom_auditTrail, requestDataOf]

theorem setFirst_cons_neg {p : α → Bool} {f : α → α} {a : α} {as : List α}
    (hp : p a = false) :
    setFirst p f (a :: as) = (setFirst p f as).map (fun q => (a :: q.1, q.2)) := by
  simp only [setFirst, hp, Bool.false_eq_true, if_false]
  cases setFirst p f as with
  | none => rfl
  | some q => rfl

theorem setFirst_none_forall {p : α → Bool} {f : α → α} :
    ∀ {l : List α}, setFirst p f l = none → ∀ x ∈ l, p x = false := by
  intro l
  induction l with
  | nil => intro _ x hx; cases hx
  | cons a as ih =>
    intro h x hx
    by_cases hp : p a
    · simp [setFirst, hp] at h
    · have hp' : p a = false := Bool.eq_false_iff.mpr hp
      rw [setFirst_cons_neg hp'] at h
      rcases List.mem_cons.mp hx with rfl | hx'
      · exact hp'
      · exact ih (Option.map_eq_none'.mp h) x hx'

theorem setFirst_some_decomp {p : α → Bool} {f : α → α} :
    ∀ {l l' : List α} {y : α}, setFirst p f l = some (l', y) →
      ∃ l₁ a l₂, l = l₁ ++ a :: l₂ ∧ (∀ x ∈ l₁, p x = false) ∧ p a = true
        ∧ y = f a ∧ l' = l₁ ++ f a :: l₂ := by
  intro l
  induction l with
  | nil => intro l' y h; cases h
  | cons a as ih =>
    intro l' y h
    by_cases hp : p a
    · refine ⟨[], a, as, rfl, by simp, hp, ?_, ?_⟩ <;>
        · simp only [setFirst, hp, if_true] at h
          cases h
          rfl
    · have hp' : p a = false := Bool.eq_false_iff.mpr hp
      rw [setFirst_cons_neg hp'] at h
      obtain ⟨⟨q1, q2⟩, hq, heq⟩ := Option.map_eq_some'.mp h
      obtain ⟨l₁, b, l₂, hsplit, hbefore, hpb, hyb, hl⟩ := ih hq
      cases heq
      refine ⟨a :: l₁, b, l₂, by rw [hsplit]; rfl, ?_, hpb, hyb, by rw [hl]; rfl⟩
      intro x hx
      rcases List.mem_cons.mp hx with rfl | hx'
      · exact hp'
      · exact hbefore x hx'

theorem saveRequest_nodup {s : Store} {r : MaterialRequest}
    (h : (requestIds s).Nodup) : (requestIds (saveRequest s r)).Nodup := by
  unfold saveRequest getRequests
  cases hset : setFirst (fun x => x.id == r.id) (fun _ => r) s.requests with
  | none =>
    have hall := setFirst_none_forall hset
    have hnot : r.id ∉ s.requests.map (fun x => x.id) := by
      intro hmem
      obtain ⟨x, hx, hxid⟩ := List.mem_map.mp hmem
      have hfalse := hall x hx
      rw [hxid] at hfalse
      simp at hfalse
    simp only [requestIds] at h ⊢
    simp [List.nodup_append, h, hnot]
  | some pair =>
    rcases pair with ⟨l', y⟩
    obtain ⟨l₁, a, l₂, hsplit, hbefore, hp, hy, hl⟩ := setFirst_some_decomp hset
    have haid : a.id = r.id := by simpa using hp
    simp only [requestIds] at h ⊢
    rw [hsplit] at h
    simp only [List.map_append, List.map_cons] at h ⊢
    rw [hl]
    simpa [List.map_append, List.map_cons, haid] using h

theorem foldl_saveRequest_nodup_aux (rs : List MaterialRequest) :
    ∀ (s : Store), (requestIds s).Nodup → (requestIds (rs.foldl saveRequest s)).Nodup := by
  induction rs with
  | nil => intro s h; exact h
  | cons x xs ih => intro s h; exact ih _ (saveRequest_nodup h)

/-- C10: saving over any sequence never produces duplicate ids; a save
with an existing id replaces that record in place, otherwise it appends. -/
theorem saveRequest_unique_ids :
    (∀ rs : List MaterialRequest, (requestIds (rs.foldl saveRequest emptyStore)).Nodup)
    ∧ (∀ (s : Store) (r a : MaterialRequest), findRequest s r.id = some a →
        ∃ l₁ l₂, s.requests = l₁ ++ a :: l₂
          ∧ (saveRequest s r).requests = l₁ ++ r :: l₂)
    ∧ (∀ (s : Store) (r : MaterialRequest), findRequest s r.id = none →
        (saveRequest s r).requests = s.requests ++ [r]) := by
  refine ⟨?_, ?_, ?_⟩
  · intro rs
    exact foldl_saveRequest_nodup_aux rs emptyStore (by simp [requestIds, emptyStore])
  · intro s r a hfind
    obtain ⟨l₁, l₂, hloc⟩ := findRequest_located hfind
    exact ⟨l₁, l₂, hloc.split, by rw [located_saveRequest r hloc]⟩
  · intro s r hfind
    have hall : ∀ x ∈ s.requests, (x.id == r.id) = false := by
      intro x hx
      exact Bool.eq_false_iff.mpr
        (List.find?_eq_none.mp (show s.requests.find? (fun q => q.id == r.id) = none from hfind) x hx)
    rw [saveRequest_append r hall]

/-- C10 witness: a save with a colliding id replaces the record, keeping
position; the stored ids stay duplicate-free. -/
theorem saveRequest_unique_ids_witness :
    ∃ l₁ l₂, (sampleStore Status.pending_cmk).requests
        = l₁ ++ sampleRequest Status.pending_cmk :: l₂
      ∧ (saveRequest (sampleStore Status.pending_cmk) (sampleRequest Status.ordered)).requests
        = l₁ ++ sampleRequest Status.ordered :: l₂ :=
  saveRequest_unique_ids.2.1 (sampleStore Status.pending_cmk) (sampleRequest Status.ordered)
    (sampleRequest Status.pending_cmk) (by decide)

/-- C9: registering a value that is already present in a reference-value
set is a no-op, so registering twice equals registering once. -/
theorem addToDropdown_idempotent (s : Store) (k : DropdownKey) (v : String) :
    (v ∈ dropdownValues s.settings k → addToDropdown s k v = s)
    ∧ addToDropdown (addToDropdown s k v) k v = addToDropdown s k v := by
  constructor
  · intro hv
    cases k with
    | materialCategories =>
      simp only [dropdownValues] at hv
      simp only [addToDropdown, if_pos (List.elem_eq_true_of_mem hv)]
    | purposes =>
      simp only [dropdownValues] at hv
      simp only [addToDropdown, if_pos (List.elem_eq_true_of_mem hv)]
  · cases k with
    | materialCategories =>
      by_cases hv : s.settings.materialCategories.contains v = true
      · simp only [addToDropdown, if_pos hv]
      · have hmem : ({ s with settings :=
            { s.settings with
              materialCategories := s.settings.materialCategories ++ [v] } } : Store).settings.materialCategories.contains v = true :=
          List.elem_eq_true_of_mem (by simp)
        simp only [addToDropdown, if_neg hv, if_pos hmem]
    | purposes =>
      by_cases hv : s.settings.purposes.contains v = true
      · simp only [addToDropdown, if_pos hv]
      · have hmem : ({ s with settings :=
            { s.settings with
              purposes := s.settings.purposes ++ [v] } } : Store).settings.purposes.contains v = true :=
          List.elem_eq_true_of_mem (by simp)
        simp only [addToDropdown, if_neg hv, if_pos hmem]

/-- C9 witness: re-adding the stock category Cell is a no-op, and adding a
novel purpose twice equals adding it once. -/
theorem addToDropdown_idempotent_witness :
    addToDropdown emptyStore DropdownKey.materialCategories "Cell" = emptyStore
    ∧ addToDropdown (addToDropdown emptyStore DropdownKey.purposes "Line Speed")
        DropdownKey.purposes "Line Speed"
      = addToDropdown emptyStore DropdownKey.purposes "Line Speed" :=
  ⟨(addToDropdown_idempotent emptyStore DropdownKey.materialCategories "Cell").1 (by decide),
   (addToDropdown_idempotent emptyStore DropdownKey.purposes "Line Speed").2⟩

/-- C1: while a request is pending CMK review, the decide command fails on
a rejection without a (non-blank) reason and on an approval without a
plant, leaving the store untouched; on success it writes `cmkDecision`
stamped `approvedBy`/`approvedAt`, moves the status to `rejected` or
`pending_ppc`, and on approval sets the request's `plant`. -/
theorem cmk_decide_correct (s : Store) (req : MaterialRequest) (user : User)
    (decision : CmkDecisionKind) (plant quantityRevised reason : String)
    (now : Nat) (auditId : String)
    (hfind : findRequest s req.id = some req) (hst : req.status = Status.pending_cmk) :
    (decision = CmkDecisionKind.rejected → jsTrim reason = "" →
      cmkReviewSubmit s req user decision plant quantityRevised reason now auditId
        = Except.error { title := "Reason Required",
                         description := "Please provide a reason for rejection." }
      ∧ applyResult s
          (cmkReviewSubmit s req user decision plant quantityRevised reason now auditId) = s)
    ∧ ((decision = CmkDecisionKind.trial ∨ decision = CmkDecisionKind.pilot) → plant = "" →
      cmkReviewSubmit s req user decision plant quantityRevised reason now auditId
        = Except.error { title := "Plant Required",
                         description := "Please select a plant for the trial/pilot." }
      ∧ applyResult s
          (cmkReviewSubmit s req user decision plant quantityRevised reason now auditId) = s)
    ∧ (decision = CmkDecisionKind.rejected → jsTrim reason ≠ "" →
      ∃ s' r', cmkReviewSubmit s req user decision plant quantityRevised reason now auditId
          = Except.ok s'
        ∧ findRequest s' req.id = some r'
        ∧ r'.status = Status.rejected
        ∧ r'.cmkDecision = some
            { decision := CmkDecisionKind.rejected, reason := some reason, plant := none,
              quantityRevised :=
                if some quantityRevised ≠ req.quantity then some quantityRevised else none,
              approvedBy := user.id, approvedAt := now }
        ∧ r'.auditTrail = req.auditTrail
            ++ [mkEntry (cmkAudit user decision plant reason now) auditId])
    ∧ ((decision = CmkDecisionKind.trial ∨ decision = CmkDecisionKind.pilot) → plant ≠ "" →
      ∃ s' r', cmkReviewSubmit s req user decision plant quantityRevised reason now auditId
          = Except.ok s'
        ∧ findRequest s' req.id = some r'
        ∧ r'.status = Status.pending_ppc
        ∧ r'.plant = some plant
        ∧ r'.cmkDecision = some
            { decision := decision, reason := none, plant := some plant,
              quantityRevised :=
                if some quantityRevised ≠ req.quantity then some quantityRevised else none,
              approvedBy := user.id, approvedAt := now }
        ∧ r'.auditTrail = req.auditTrail
            ++ [mkEntry (cmkAudit user decision plant reason now) auditId]) := by
  obtain ⟨l₁, l₂, hloc⟩ := findRequest_located hfind
  refine ⟨?_, ?_, ?_, ?_⟩
  · intro hdec hres
    have h1 : cmkReviewSubmit s req user decision plant quantityRevised reason now auditId
        = Except.error { title := "Reason Required",
                         description := "Please provide a reason for rejection." } := by
      unfold cmkReviewSubmit
      rw [if_pos ⟨hdec, hres⟩]
    exact ⟨h1, by rw [h1]; rfl⟩
  · intro hdec hplant
    have hg1 : ¬(decision = CmkDecisionKind.rejected ∧ jsTrim reason = "") := by
      rcases hdec with rfl | rfl <;> simp
    have h1 : cmkReviewSubmit s req user decision plant quantityRevised reason now auditId
        = Except.error { title := "Plant Required",
                         description := "Please select a plant for the trial/pilot." } := by
      unfold cmkReviewSubmit
      rw [if_neg hg1, if_pos ⟨hdec, hplant⟩]
    exact ⟨h1, by rw [h1]; rfl⟩
  · intro hdec hres
    have hg1 : ¬(decision = CmkDecisionKind.rejected ∧ jsTrim reason = "") := by
      intro hc
      exact hres hc.2
    have hg2 : ¬((decision = CmkDecisionKind.trial ∨ decision = CmkDecisionKind.pilot)
        ∧ plant = "") := by
      subst hdec
      simp
    have h1 : cmkReviewSubmit s req user decision plant quantityRevised reason now auditId
        = Except.ok (addAuditEntry
            (updateRequest s req.id (cmkUpd req user decision plant quantityRevised reason now)).1
            req.id (cmkAudit user decision plant reason now) auditId) := by
      unfold cmkReviewSubmit
      rw [if_neg hg1, if_neg hg2]
    rw [h1, commitA hloc (cmkUpd req user decision plant quantityRevised reason now)
      (cmkAudit user decision plant reason now) auditId rfl]
    refine ⟨_, _, rfl, located_findRequest ⟨rfl, hloc.before, by simp [cmkUpd]⟩, ?_, ?_, rfl⟩
    · simp [cmkUpd, hdec]
    · simp [cmkUpd, hdec]
  · intro hdec hplant
    have hg1 : ¬(decision = CmkDecisionKind.rejected ∧ jsTrim reason = "") := by
      rcases hdec with rfl | rfl <;> simp
    have hg2 : ¬((decision = CmkDecisionKind.trial ∨ decision = CmkDecisionKind.pilot)
        ∧ plant = "") := by
      intro hc
      exact hplant hc.2
    have h1 : cmkReviewSubmit s req user decision plant quantityRevised reason now auditId
        = Except.ok (addAuditEntry
            (updateRequest s req.id (cmkUpd req user decision plant quantityRevised reason now)).1
            req.id (cmkAudit user decision plant reason now) auditId) := by
      unfold cmkReviewSubmit
      rw [if_neg hg1, if_neg hg2]
    have hnr : decision ≠ CmkDecisionKind.rejected := by
      rcases hdec with rfl | rfl <;> simp
    rw [h1, commitA hloc (cmkUpd req user decision plant quantityRevised reason now)
      (cmkAudit user decision plant reason now) auditId rfl]
    refine ⟨_, _, rfl, located_findRequest ⟨rfl, hloc.before, by simp [cmkUpd]⟩, ?_, ?_, ?_, rfl⟩
    · simp [cmkUpd, hnr]
    · simp [cmkUpd, hnr]
    · simp [cmkUpd, hnr]

/-- C1 witness: the sample pending request approved for trial at plant P2
moves to pending_ppc with a stamped decision block. -/
theorem cmk_decide_correct_witness :
    ∃ s' r', cmkReviewSubmit (sampleStore Status.pending_cmk) (sampleRequest Status.pending_cmk)
        cmkUser CmkDecisionKind.trial "P2" "1 pallet" "" 2 "b1" = Except.ok s'
      ∧ findRequest s' (sampleRequest Status.pending_cmk).id = some r'
      ∧ r'.status = Status.pending_ppc
      ∧ r'.plant = some "P2"
      ∧ r'.cmkDecision = some
          { decision := CmkDecisionKind.trial, reason := none, plant := some "P2",
            quantityRevised :=
              if some "1 pallet" ≠ (sampleRequest Status.pending_cmk).quantity
              then some "1 pallet" else none,
            approvedBy := cmkUser.id, approvedAt := 2 }
      ∧ r'.auditTrail = (sampleRequest Status.pending_cmk).auditTrail
          ++ [mkEntry (cmkAudit cmkUser CmkDecisionKind.trial "P2" "" 2) "b1"] :=
  (cmk_decide_correct (sampleStore Status.pending_cmk) (sampleRequest Status.pending_cmk)
    cmkUser CmkDecisionKind.trial "P2" "1 pallet" "" 2 "b1" (by decide) (by decide)).2.2.2
    (Or.inl rfl) (by decide)

/-- C4 counterexample: with an empty materialCode the PPC handler fails,
but with the one generic toast, identical to the error for a missing
prNumber, whose text nowhere contains the field name materialCode. -/
theorem ppc_error_generic_counterexample :
    ppcSubmit (sampleStore Status.pending_ppc) (sampleRequest Status.pending_ppc)
        ppcUser "PR1" "" "desc" 3 "c1"
      = Except.error { title := "All Fields Required",
                       description := "Please fill in all PPC fields." }
    ∧ ppcSubmit (sampleStore Status.pending_ppc) (sampleRequest Status.pending_ppc)
        ppcUser "" "MC1" "desc" 3 "c1"
      = ppcSubmit (sampleStore Status.pending_ppc) (sampleRequest Status.pending_ppc)
        ppcUser "PR1" "" "desc" 3 "c1"
    ∧ ¬ ("materialCode".toList <:+:
        ("All Fields Required" ++ " " ++ "Please fill in all PPC fields.").toList) := by
  exact ⟨rfl, rfl, by decide⟩

/-- C4 amended: the PPC enter-data command with any blank field fails with
the single generic all-fields-required validation error (which does not
name the specific field) and leaves the store unchanged; with all three
fields non-blank it writes `ppcData` and moves the status to
`pending_procurement`. -/
theorem ppc_enter_data_correct (s : Store) (req : MaterialRequest) (user : User)
    (prNumber materialCode description : String) (now : Nat) (auditId : String)
    (hfind : findRequest s req.id = some req) (hst : req.status = Status.pending_ppc) :
    (jsTrim prNumber = "" ∨ jsTrim materialCode = "" ∨ jsTrim description = "" →
      ppcSubmit s req user prNumber materialCode description now auditId
        = Except.error { title := "All Fields Required",
                         description := "Please fill in all PPC fields." }
      ∧ applyResult s (ppcSubmit s req user prNumber materialCode description now auditId) = s)
    ∧ (jsTrim prNumber ≠ "" → jsTrim materialCode ≠ "" → jsTrim description ≠ "" →
      ∃ s' r', ppcSubmit s req user prNumber materialCode description now auditId
          = Except.ok s'
        ∧ findRequest s' req.id = some r'
        ∧ r'.status = Status.pending_procurement
        ∧ r'.ppcData = some
            { prNumber := jsTrim prNumber, materialCode := jsTrim materialCode,
              description := jsTrim description, enteredBy := user.id, enteredAt := now }
        ∧ r'.auditTrail = req.auditTrail
            ++ [mkEntry (ppcAudit user prNumber materialCode now) auditId]) := by
  obtain ⟨l₁, l₂, hloc⟩ := findRequest_located hfind
  constructor
  · intro hblank
    have h1 : ppcSubmit s req user prNumber materialCode description now auditId
        = Except.error { title := "All Fields Required",
                         description := "Please fill in all PPC fields." } := by
      unfold ppcSubmit
      rw [if_pos hblank]
    exact ⟨h1, by rw [h1]; rfl⟩
  · intro hpr hmc hdesc
    have h1 : ppcSubmit s req user prNumber materialCode description now auditId
        = Except.ok (addAuditEntry
            (updateRequest s req.id (ppcUpd user prNumber materialCode description now)).1
            req.id (ppcAudit user prNumber materialCode now) auditId) := by
      unfold ppcSubmit
      rw [if_neg (by simp [hpr, hmc, hdesc])]
    rw [h1, commitA hloc (ppcUpd user prNumber materialCode description now)
      (ppcAudit user prNumber materialCode now) auditId rfl]
    exact ⟨_, _, rfl, located_findRequest ⟨rfl, hloc.before, by simp [ppcUpd]⟩, by simp [ppcUpd],
      by simp [ppcUpd], rfl⟩

/-- C4 witness: the amended success case at concrete PPC data. -/
theorem ppc_enter_data_correct_witness :
    ∃ s' r', ppcSubmit (sampleStore Status.pending_ppc) (sampleRequest Status.pending_ppc)
        ppcUser "PR1" "M1" "d" 3 "c2" = Except.ok s'
      ∧ findRequest s' (sampleRequest Status.pending_ppc).id = some r'
      ∧ r'.status = Status.pending_procurement
      ∧ r'.ppcData = some
          { prNumber := jsTrim "PR1", materialCode := jsTrim "M1", description := jsTrim "d",
            enteredBy := ppcUser.id, enteredAt := 3 }
      ∧ r'.auditTrail = (sampleRequest Status.pending_ppc).auditTrail
          ++ [mkEntry (ppcAudit ppcUser "PR1" "M1" 3) "c2"] :=
  (ppc_enter_data_correct (sampleStore Status.pending_ppc) (sampleRequest Status.pending_ppc)
    ppcUser "PR1" "M1" "d" 3 "c2" (by decide) (by decide)).2
    (by decide) (by decide) (by decide)

theorem singleton_located (a : MaterialRequest) (sett : AppSettings) :
    LocatedAt { requests := [a], settings := sett } a.id [] a [] :=
  ⟨rfl, by simp, by simp⟩

theorem singleton_commitA (a : MaterialRequest) (sett : AppSettings)
    (upd : MaterialRequest → MaterialRequest) (e : AuditEntryInput) (aid : String)
    (hid : (upd a).id = a.id) :
    addAuditEntry (updateRequest { requests := [a], settings := sett } a.id upd).1 a.id e aid
      = { requests := [{ upd a with auditTrail := (upd a).auditTrail ++ [mkEntry e aid] }],
          settings := sett } := by
  rw [commitA (singleton_located a sett) upd e aid hid]
  rfl

theorem singleton_commitB (a : MaterialRequest) (sett : AppSettings)
    (upd : MaterialRequest → MaterialRequest) (e : AuditEntryInput) (aid : String) :
    (updateRequest (addAuditEntry { requests := [a], settings := sett } a.id e aid) a.id upd).1
      = { requests := [upd { a with auditTrail := a.auditTrail ++ [mkEntry e aid] }],
          settings := sett } := by
  rw [commitB (singleton_located a sett) upd e aid]
  rfl

theorem resolveCustom_empty (form : RequestFormData) (rd : MaterialRequest) :
    resolveCustom form "" "" rd = rd := by
  simp [resolveCustom]

theorem dropdownEffects_empty (form : RequestFormData) (s : Store) :
    dropdownEffects form "" "" s = s := by
  simp [dropdownEffects]

/-- C2: a stale place-order command — issued while the request has already
advanced to `ordered` — is not rejected: the dashboard's role/status gate
still opens the procurement modal at `ordered`, the handler commits again,
rewrites `procurementData` and appends a second Material Ordered audit
entry.  The embedding has no error path for a source-status mismatch. -/
theorem stale_command_silently_reapplied :
    handleView procUser.role orderedRequest.status = ModalType.procurement
    ∧ ∃ s', procurementSubmit orderedStore orderedRequest procUser ProcAction.order
          "air" "2025-03-01" "" 5 "d1" = Except.ok s'
        ∧ Step 5 orderedStore s'
        ∧ (findRequest s' "R1").map (fun r => r.status) = some Status.ordered
        ∧ (findRequest s' "R1").map (fun r => r.auditTrail.length) = some 2 := by
  refine ⟨by decide, _, rfl, Step.procurementAct orderedStore orderedRequest procUser
    ProcAction.order "air" "2025-03-01" "" "d1" _ (by decide) (by decide) rfl,
    by decide, by decide⟩

/-- C3: the requestor edit is neither restricted to `pending_cmk` nor
effective on the intake fields.  Submitting a changed supplier name on a
pending request leaves the stored value unchanged (the trailing
`...request` spread discards the form values), while an audit entry is
still appended; and the identical edit command is accepted and committed
while the request is already `ordered`. -/
theorem edit_discards_form_and_ignores_status :
    editForm.supplierName = "Acme Beta"
    ∧ (sampleRequest Status.pending_cmk).supplierName = "Acme Alpha"
    ∧ ((findRequest (requestSubmit (sampleStore Status.pending_cmk)
          (some (sampleRequest Status.pending_cmk)) RequestMode.edit requestorUser editForm
          "" "" "G1" 9 "e1") "R1").map (fun r => r.supplierName) = some "Acme Alpha")
    ∧ ((findRequest (requestSubmit (sampleStore Status.pending_cmk)
          (some (sampleRequest Status.pending_cmk)) RequestMode.edit requestorUser editForm
          "" "" "G1" 9 "e1") "R1").map (fun r => r.status) = some Status.pending_cmk)
    ∧ ((findRequest (requestSubmit (sampleStore Status.pending_cmk)
          (some (sampleRequest Status.pending_cmk)) RequestMode.edit requestorUser editForm
          "" "" "G1" 9 "e1") "R1").map (fun r => r.auditTrail.length) = some 2)
    ∧ Step 9 (sampleStore Status.ordered)
        (requestSubmit (sampleStore Status.ordered) (some (sampleRequest Status.ordered))
          RequestMode.edit requestorUser editForm "" "" "G1" 9 "e1")
    ∧ ((findRequest (requestSubmit (sampleStore Status.ordered)
          (some (sampleRequest Status.ordered)) RequestMode.edit requestorUser editForm
          "" "" "G1" 9 "e1") "R1").map (fun r => r.auditTrail.length) = some 2) := by
  refine ⟨rfl, rfl, by decide, by decide, by decide,
    Step.edit (sampleStore Status.ordered) (sampleRequest Status.ordered) requestorUser editForm
      "" "" "G1" "e1" rfl (by decide), by decide⟩

/-- C7: creating a request with a fresh id and immediately reading it back
returns the submitted intake fields, status `pending_cmk`, and an audit
trail of exactly one entry. -/
theorem create_roundtrip (s : Store) (user : User) (form : RequestFormData)
    (cc cp genId : String) (now : Nat) (auditId : String)
    (hfresh : findRequest s genId = none)
    (hcat : form.materialCategory ≠ "Other") (hpur : form.purpose ≠ "Other") :
    ∃ r, findRequest
        (requestSubmit s none RequestMode.create user form cc cp genId now auditId) genId
        = some r
      ∧ r.dateReceived = form.dateReceived
      ∧ r.materialCategory = form.materialCategory
      ∧ r.materialDetails = form.materialDetails
      ∧ r.supplierName = form.supplierName
      ∧ r.quantity = form.quantity
      ∧ r.trialAtPlant = form.trialAtPlant
      ∧ r.purpose = form.purpose
      ∧ r.status = Status.pending_cmk
      ∧ r.auditTrail.length = 1 := by
  rw [requestSubmit_create_eq s user form cc cp genId now auditId hfresh]
  have hres : resolveCustom form cc cp (requestDataOf none user form genId)
      = requestDataOf none user form genId := by
    simp [resolveCustom, hcat, hpur]
  have hall : ∀ x ∈ s.requests, (x.id == genId) = false := by
    intro x hx
    exact Bool.eq_false_iff.mpr
      (List.find?_eq_none.mp
        (show s.requests.find? (fun q => q.id == genId) = none from hfresh) x hx)
  have hfr : findRequest
      ({ dropdownEffects form cc cp s with
         requests := s.requests ++
           [{ resolveCustom form cc cp (requestDataOf none user form genId) with
              auditTrail := [mkEntry (requestAudit RequestMode.create user now) auditId] }] })
      genId
      = some ({ resolveCustom form cc cp (requestDataOf none user form genId) with
                auditTrail := [mkEntry (requestAudit RequestMode.create user now) auditId] }) := by
    unfold findRequest getRequests
    exact find?_first [] hall (by simp [resolveCustom_id, requestDataOf])
  refine ⟨_, hfr, ?_, ?_, ?_, ?_, ?_, ?_, ?_, ?_, ?_⟩ <;>
    simp [resolveCustom, hcat, hpur, requestDataOf]

/-- C7 witness: creating the sample intake into the empty store. -/
theorem create_roundtrip_witness :
    ∃ r, findRequest
        (requestSubmit emptyStore none RequestMode.create requestorUser sampleForm
          "" "" "R9" 1 "w1") "R9" = some r
      ∧ r.dateReceived = sampleForm.dateReceived
      ∧ r.materialCategory = sampleForm.materialCategory
      ∧ r.materialDetails = sampleForm.materialDetails
      ∧ r.supplierName = sampleForm.supplierName
      ∧ r.quantity = sampleForm.quantity
      ∧ r.trialAtPlant = sampleForm.trialAtPlant
      ∧ r.purpose = sampleForm.purpose
      ∧ r.status = Status.pending_cmk
      ∧ r.auditTrail.length = 1 :=
  create_roundtrip emptyStore requestorUser sampleForm "" "" "R9" 1 "w1"
    (by decide) (by decide) (by decide)

/-- C8: starting from a freshly created request, the simple-variant happy
path — CMK trial approval with a plant, PPC data with all fields, place
order, mark delivered, confirm receipt with a completion date, submit a
non-blank report — succeeds at every step and ends with status
`completed` and exactly 7 audit entries. -/
theorem happy_path_completion (form : RequestFormData)
    (plant qr pr mc desc ot ed rem cd rep : String)
    (hplant : plant ≠ "") (hpr : jsTrim pr ≠ "") (hmc : jsTrim mc ≠ "")
    (hdesc : jsTrim desc ≠ "") (hot : ot ≠ "") (hed : ed ≠ "")
    (hcd : cd ≠ "") (hrep : jsTrim rep ≠ "") :
    ∃ r1 s2 r2 s3 r3 s4 r4 s5 r5 s6 r6 s7 r7,
      findRequest (requestSubmit emptyStore none RequestMode.create requestorUser form
          "" "" "R1" 1 "a1") "R1" = some r1
      ∧ r1.status = Status.pending_cmk
      ∧ cmkReviewSubmit (requestSubmit emptyStore none RequestMode.create requestorUser form
          "" "" "R1" 1 "a1") r1 cmkUser CmkDecisionKind.trial plant qr "" 2 "a2" = Except.ok s2
      ∧ findRequest s2 "R1" = some r2
      ∧ r2.status = Status.pending_ppc
      ∧ ppcSubmit s2 r2 ppcUser pr mc desc 3 "a3" = Except.ok s3
      ∧ findRequest s3 "R1" = some r3
      ∧ r3.status = Status.pending_procurement
      ∧ procurementSubmit s3 r3 procUser ProcAction.order ot ed rem 4 "a4" = Except.ok s4
      ∧ findRequest s4 "R1" = some r4
      ∧ r4.status = Status.ordered
      ∧ procurementSubmit s4 r4 procUser ProcAction.deliver ot ed rem 5 "a5" = Except.ok s5
      ∧ findRequest s5 "R1" = some r5
      ∧ r5.status = Status.delivered
      ∧ evaluationSubmit s5 r5 evalUser EvalAction.receive true cd rep 6 "a6" = Except.ok s6
      ∧ findRequest s6 "R1" = some r6
      ∧ r6.status = Status.pending_evaluation
      ∧ evaluationSubmit s6 r6 evalUser EvalAction.report true cd rep 7 "a7" = Except.ok s7
      ∧ findRequest s7 "R1" = some r7
      ∧ r7.status = Status.completed
      ∧ r7.auditTrail.length = 7 := by
  have hs1 : requestSubmit emptyStore none RequestMode.create requestorUser form "" "" "R1" 1 "a1"
      = { requests := [{ requestDataOf none requestorUser form "R1" with
            auditTrail := [mkEntry (requestAudit RequestMode.create requestorUser 1) "a1"] }],
          settings := defaultSettings } := by
    rw [requestSubmit_create_eq _ _ _ _ _ _ _ _ (by rfl), resolveCustom_empty,
      dropdownEffects_empty]
    rfl
  rw [hs1]
  set B1 : MaterialRequest := { requestDataOf none requestorUser form "R1" with
    auditTrail := [mkEntry (requestAudit RequestMode.create requestorUser 1) "a1"] } with hB1
  set B2 : MaterialRequest :=
    { cmkUpd B1 cmkUser CmkDecisionKind.trial plant qr "" 2 B1 with
      auditTrail := (cmkUpd B1 cmkUser CmkDecisionKind.trial plant qr "" 2 B1).auditTrail
        ++ [mkEntry (cmkAudit cmkUser CmkDecisionKind.trial plant "" 2) "a2"] } with hB2
  set B3 : MaterialRequest :=
    { ppcUpd ppcUser pr mc desc 3 B2 with
      auditTrail := (ppcUpd ppcUser pr mc desc 3 B2).auditTrail
        ++ [mkEntry (ppcAudit ppcUser pr mc 3) "a3"] } with hB3
  set B4 : MaterialRequest :=
    procOrderUpd procUser ot ed rem 4
      { B3 with auditTrail := B3.auditTrail
          ++ [mkEntry (procOrderAudit procUser ot ed 4) "a4"] } with hB4
  set B5 : MaterialRequest :=
    procDeliverUpd B4 procUser 5
      { B4 with auditTrail := B4.auditTrail
          ++ [mkEntry (procDeliverAudit procUser 5) "a5"] } with hB5
  set B6 : MaterialRequest :=
    evalReceiveUpd B5 evalUser cd 6
      { B5 with auditTrail := B5.auditTrail
          ++ [mkEntry (evalReceiveAudit evalUser cd 6) "a6"] } with hB6
  set B7 : MaterialRequest :=
    evalReportUpd B6 evalUser rep 7
      { B6 with auditTrail := B6.auditTrail
          ++ [mkEntry (evalReportAudit evalUser 7) "a7"] } with hB7
  have hf1 : findRequest { requests := [B1], settings := defaultSettings } "R1" = some B1 :=
    located_findRequest (singleton_located B1 defaultSettings)
  have hok2 : cmkReviewSubmit { requests := [B1], settings := defaultSettings } B1 cmkUser
      CmkDecisionKind.trial plant qr "" 2 "a2"
      = Except.ok { requests := [B2], settings := defaultSettings } := by
    unfold cmkReviewSubmit
    rw [if_neg (by simp), if_neg (by simp [hplant])]
    exact congrArg Except.ok (singleton_commitA B1 defaultSettings
      (cmkUpd B1 cmkUser CmkDecisionKind.trial plant qr "" 2)
      (cmkAudit cmkUser CmkDecisionKind.trial plant "" 2) "a2" rfl)
  have hf2 : findRequest { requests := [B2], settings := defaultSettings } "R1" = some B2 :=
    located_findRequest (singleton_located B2 defaultSettings)
  have hok3 : ppcSubmit { requests := [B2], settings := defaultSettings } B2 ppcUser
      pr mc desc 3 "a3"
      = Except.ok { requests := [B3], settings := defaultSettings } := by
    unfold ppcSubmit
    rw [if_neg (by simp [hpr, hmc, hdesc])]
    exact congrArg Except.ok (singleton_commitA B2 defaultSettings (ppcUpd ppcUser pr mc desc 3)
      (ppcAudit ppcUser pr mc 3) "a3" rfl)
  have hf3 : findRequest { requests := [B3], settings := defaultSettings } "R1" = some B3 :=
    located_findRequest (singleton_located B3 defaultSettings)
  have hok4 : procurementSubmit { requests := [B3], settings := defaultSettings } B3 procUser
      ProcAction.order ot ed rem 4 "a4"
      = Except.ok { requests := [B4], settings := defaultSettings } := by
    simp only [procurementSubmit]
    rw [if_neg (by simp [hot, hed])]
    exact congrArg Except.ok (singleton_commitB B3 defaultSettings
      (procOrderUpd procUser ot ed rem 4) (procOrderAudit procUser ot ed 4) "a4")
  have hf4 : findRequest { requests := [B4], settings := defaultSettings } "R1" = some B4 :=
    located_findRequest (singleton_located B4 defaultSettings)
  have hok5 : procurementSubmit { requests := [B4], settings := defaultSettings } B4 procUser
      ProcAction.deliver ot ed rem 5 "a5"
      = Except.ok { requests := [B5], settings := defaultSettings } := by
    simp only [procurementSubmit]
    exact congrArg Except.ok (singleton_commitB B4 defaultSettings
      (procDeliverUpd B4 procUser 5) (procDeliverAudit procUser 5) "a5")
  have hf5 : findRequest { requests := [B5], settings := defaultSettings } "R1" = some B5 :=
    located_findRequest (singleton_located B5 defaultSettings)
  have hok6 : evaluationSubmit { requests := [B5], settings := defaultSettings } B5 evalUser
      EvalAction.receive true cd rep 6 "a6"
      = Except.ok { requests := [B6], settings := defaultSettings } := by
    simp only [evaluationSubmit]
    rw [if_neg (by simp), if_neg hcd]
    exact congrArg Except.ok (singleton_commitB B5 defaultSettings
      (evalReceiveUpd B5 evalUser cd 6) (evalReceiveAudit evalUser cd 6) "a6")
  have hf6 : findRequest { requests := [B6], settings := defaultSettings } "R1" = some B6 :=
    located_findRequest (singleton_located B6 defaultSettings)
  have hok7 : evaluationSubmit { requests := [B6], settings := defaultSettings } B6 evalUser
      EvalAction.report true cd rep 7 "a7"
      = Except.ok { requests := [B7], settings := defaultSettings } := by
    simp only [evaluationSubmit]
    rw [if_neg hrep]
    exact congrArg Except.ok (singleton_commitB B6 defaultSettings
      (evalReportUpd B6 evalUser rep 7) (evalReportAudit evalUser 7) "a7")
  have hf7 : findRequest { requests := [B7], settings := defaultSettings } "R1" = some B7 :=
    located_findRequest (singleton_located B7 defaultSettings)
  exact ⟨B1, { requests := [B2], settings := defaultSettings }, B2,
    { requests := [B3], settings := defaultSettings }, B3,
    { requests := [B4], settings := defaultSettings }, B4,
    { requests := [B5], settings := defaultSettings }, B5,
    { requests := [B6], settings := defaultSettings }, B6,
    { requests := [B7], settings := defaultSettings }, B7,
    hf1, rfl, hok2, hf2, rfl, hok3, hf3, rfl, hok4, hf4, rfl, hok5, hf5, rfl,
    hok6, hf6, rfl, hok7, hf7, rfl, rfl⟩

/-- C8 witness: the spec's concrete scenario (trial at P2, PR1/M1/d, air
order, report ok) run through the whole pipeline. -/
theorem happy_path_completion_witness :
    ∃ r1 s2 r2 s3 r3 s4 r4 s5 r5 s6 r6 s7 r7,
      findRequest (requestSubmit emptyStore none RequestMode.create requestorUser sampleForm
          "" "" "R1" 1 "a1") "R1" = some r1
      ∧ r1.status = Status.pending_cmk
      ∧ cmkReviewSubmit (requestSubmit emptyStore none RequestMode.create requestorUser sampleForm
          "" "" "R1" 1 "a1") r1 cmkUser CmkDecisionKind.trial "P2" "1 pallet" "" 2 "a2"
        = Except.ok s2
      ∧ findRequest s2 "R1" = some r2
      ∧ r2.status = Status.pending_ppc
      ∧ ppcSubmit s2 r2 ppcUser "PR1" "M1" "d" 3 "a3" = Except.ok s3
      ∧ findRequest s3 "R1" = some r3
      ∧ r3.status = Status.pending_procurement
      ∧ procurementSubmit s3 r3 procUser ProcAction.order "air" "2025-03-01" "" 4 "a4"
        = Except.ok s4
      ∧ findRequest s4 "R1" = some r4
      ∧ r4.status = Status.ordered
      ∧ procurementSubmit s4 r4 procUser ProcAction.deliver "air" "2025-03-01" "" 5 "a5"
        = Except.ok s5
      ∧ findRequest s5 "R1" = some r5
      ∧ r5.status = Status.delivered
      ∧ evaluationSubmit s5 r5 evalUser EvalAction.receive true "2025-04-01" "ok" 6 "a6"
        = Except.ok s6
      ∧ findRequest s6 "R1" = some r6
      ∧ r6.status = Status.pending_evaluation
      ∧ evaluationSubmit s6 r6 evalUser EvalAction.report true "2025-04-01" "ok" 7 "a7"
        = Except.ok s7
      ∧ findRequest s7 "R1" = some r7
      ∧ r7.status = Status.completed
      ∧ r7.auditTrail.length = 7 :=
  happy_path_completion sampleForm "P2" "1 pallet" "PR1" "M1" "d" "air" "2025-03-01" ""
    "2025-04-01" "ok" (by decide) (by decide) (by decide) (by decide) (by decide)
    (by decide) (by decide) (by decide)

theorem mem_commit_cases {s : Store} {l₁ l₂ : List MaterialRequest}
    {a b r' : MaterialRequest}
    (hsplit : s.requests = l₁ ++ a :: l₂)
    (hmem : r' ∈ l₁ ++ b :: l₂) :
    r' = b ∨ r' ∈ s.requests := by
  rcases List.mem_append.mp hmem with h | h
  · exact Or.inr (by rw [hsplit]; exact List.mem_append.mpr (Or.inl h))
  · rcases List.mem_cons.mp h with rfl | h
    · exact Or.inl rfl
    · exact Or.inr (by rw [hsplit]; exact List.mem_append.mpr (Or.inr (List.mem_cons_of_mem _ h)))

/-- C5: over any committed interaction of the app, a request whose status
becomes `rejected` and was not `rejected` before was in one of the two
CMK-owned statuses: `pending_cmk` or `pending_final_cmk`. -/
theorem rejected_only_via_cmk (now : Nat) (s s' : Store) (hstep : Step now s s')
    (r' : MaterialRequest) (hmem : r' ∈ s'.requests)
    (hrej : r'.status = Status.rejected)
    (hbefore : ∀ r ∈ s.requests, r.id = r'.id → r.status ≠ Status.rejected) :
    ∃ r ∈ s.requests, r.id = r'.id
      ∧ (r.status = Status.pending_cmk ∨ r.status = Status.pending_final_cmk) := by
  cases hstep with
  | create user form cc cp genId auditId hrole hfresh =>
    rw [requestSubmit_create_eq s user form cc cp genId now auditId hfresh] at hmem
    rcases List.mem_append.mp hmem with h | h
    · exact absurd hrej (hbefore r' h rfl)
    · rw [List.mem_singleton] at h
      subst h
      simp [resolveCustom_status, requestDataOf] at hrej
  | edit req user form cc cp genId auditId hrole hfind =>
    obtain ⟨l₁, l₂, hloc⟩ := findRequest_located hfind
    rw [requestSubmit_edit_eq s req RequestMode.edit user form cc cp genId now auditId hloc]
      at hmem
    rcases mem_commit_cases hloc.split hmem with rfl | h
    · have hid : req.id =
          ({ resolveCustom form cc cp req with
             auditTrail := req.auditTrail
               ++ [mkEntry (requestAudit RequestMode.edit user now) auditId] }
            : MaterialRequest).id := (resolveCustom_id form cc cp req).symm
      have hst : ({ resolveCustom form cc cp req with
          auditTrail := req.auditTrail
            ++ [mkEntry (requestAudit RequestMode.edit user now) auditId] }
            : MaterialRequest).status = req.status := resolveCustom_status form cc cp req
      rw [hst] at hrej
      exact absurd hrej (hbefore req (located_mem hloc) hid)
    · exact absurd hrej (hbefore r' h rfl)
  | cmkDecide req user decision plant quantityRevised reason auditId s2 hfind hview hok =>
    obtain ⟨l₁, l₂, hloc⟩ := findRequest_located hfind
    rw [cmkReviewSubmit_ok hok,
      commitA hloc (cmkUpd req user decision plant quantityRevised reason now)
        (cmkAudit user decision plant reason now) auditId rfl] at hmem
    rcases mem_commit_cases hloc.split hmem with rfl | h
    · exact ⟨req, located_mem hloc, rfl, Or.inl (handleView_cmk hview).2⟩
    · exact absurd hrej (hbefore r' h rfl)
  | ppcEnter req user prNumber materialCode description auditId s2 hfind hview hok =>
    obtain ⟨l₁, l₂, hloc⟩ := findRequest_located hfind
    rw [ppcSubmit_ok hok,
      commitA hloc (ppcUpd user prNumber materialCode description now)
        (ppcAudit user prNumber materialCode now) auditId rfl] at hmem
    rcases mem_commit_cases hloc.split hmem with rfl | h
    · simp [ppcUpd] at hrej
    · exact absurd hrej (hbefore r' h rfl)
  | procurementAct req user action orderType estimatedDelivery remarks auditId s2 hfind hview hok =>
    obtain ⟨l₁, l₂, hloc⟩ := findRequest_located hfind
    rcases procurementSubmit_ok hok with heq | heq <;>
      rw [heq, commitB hloc _ _ _] at hmem
    · rcases mem_commit_cases hloc.split hmem with rfl | h
      · simp [procOrderUpd] at hrej
      · exact absurd hrej (hbefore r' h rfl)
    · rcases mem_commit_cases hloc.split hmem with rfl | h
      · simp [procDeliverUpd] at hrej
      · exact absurd hrej (hbefore r' h rfl)
  | evaluationAct req user action received completionDate report auditId s2 hfind hview hok =>
    obtain ⟨l₁, l₂, hloc⟩ := findRequest_located hfind
    rcases evaluationSubmit_ok hok with heq | heq <;>
      rw [heq, commitB hloc _ _ _] at hmem
    · rcases mem_commit_cases hloc.split hmem with rfl | h
      · simp [evalReceiveUpd] at hrej
      · exact absurd hrej (hbefore r' h rfl)
    · rcases mem_commit_cases hloc.split hmem with rfl | h
      · simp [evalReportUpd] at hrej
      · exact absurd hrej (hbefore r' h rfl)
  | finalReview req user decision comments reason auditId s2 hfind hview hok =>
    obtain ⟨l₁, l₂, hloc⟩ := findRequest_located hfind
    rw [finalCmkSubmit_ok hloc hok,
      commitA hloc (finalUpd user decision comments reason now)
        (finalAudit user decision comments reason now) auditId rfl] at hmem
    rcases mem_commit_cases hloc.split hmem with rfl | h
    · exact ⟨req, located_mem hloc, rfl, Or.inr (handleView_final hview).2⟩
    · exact absurd hrej (hbefore r' h rfl)

/-- C5 witness: a CMK rejection step out of `pending_cmk` satisfies the
reachability property at a concrete store. -/
theorem rejected_only_via_cmk_witness :
    ∃ r ∈ (sampleStore Status.pending_cmk).requests,
      r.status = Status.pending_cmk ∨ r.status = Status.pending_final_cmk := by
  obtain ⟨r, hr, _, hst⟩ :=
    rejected_only_via_cmk 2 (sampleStore Status.pending_cmk)
      (addAuditEntry
        (updateRequest (sampleStore Status.pending_cmk) (sampleRequest Status.pending_cmk).id
          (cmkUpd (sampleRequest Status.pending_cmk) cmkUser CmkDecisionKind.rejected
            "" "1 pallet" "bad spec" 2)).1
        (sampleRequest Status.pending_cmk).id
        (cmkAudit cmkUser CmkDecisionKind.rejected "" "bad spec" 2) "w5")
      (Step.cmkDecide (sampleStore Status.pending_cmk) (sampleRequest Status.pending_cmk)
        cmkUser CmkDecisionKind.rejected "" "1 pallet" "bad spec" "w5" _
        (by decide) (by decide) rfl)
      ({ cmkUpd (sampleRequest Status.pending_cmk) cmkUser CmkDecisionKind.rejected
          "" "1 pallet" "bad spec" 2 (sampleRequest Status.pending_cmk) with
         auditTrail := (cmkUpd (sampleRequest Status.pending_cmk) cmkUser
             CmkDecisionKind.rejected "" "1 pallet" "bad spec" 2
             (sampleRequest Status.pending_cmk)).auditTrail
           ++ [mkEntry (cmkAudit cmkUser CmkDecisionKind.rejected "" "bad spec" 2) "w5"] })
      (by decide) (by decide) (by decide)
  exact ⟨r, hr, hst⟩

theorem totalAudit_commit {s : Store} {l₁ l₂ : List MaterialRequest}
    {a b : MaterialRequest}
    (hsplit : s.requests = l₁ ++ a :: l₂)
    (hb : b.auditTrail.length = a.auditTrail.length + 1) :
    totalAudit { s with requests := l₁ ++ b :: l₂ } = totalAudit s + 1 := by
  simp only [totalAudit, hsplit, List.map_append, List.map_cons, List.sum_append,
    List.sum_cons, hb]
  omega

theorem totalAudit_append {s : Store} {b : MaterialRequest}
    (hb : b.auditTrail.length = 1) :
    totalAudit { s with requests := s.requests ++ [b] } = totalAudit s + 1 := by
  simp [totalAudit, hb]

theorem audit_shape_commit {s : Store} {l₁ l₂ : List MaterialRequest}
    {a b : MaterialRequest} {now : Nat}
    (hsplit : s.requests = l₁ ++ a :: l₂)
    (hid : b.id = a.id)
    (htrail : ∃ e, e.timestamp = now ∧ b.auditTrail = a.auditTrail ++ [e])
    (hmono : ∀ r ∈ s.requests, ∀ e ∈ r.auditTrail, e.timestamp ≤ now) :
    ∀ r' ∈ l₁ ++ b :: l₂,
      (∃ r ∈ s.requests, r.id = r'.id ∧ r'.auditTrail = r.auditTrail)
      ∨ (∃ e, e.timestamp = now
          ∧ ((∃ r ∈ s.requests, r.id = r'.id ∧ r'.auditTrail = r.auditTrail ++ [e]
                ∧ ∀ e' ∈ r.auditTrail, e'.timestamp ≤ e.timestamp)
             ∨ r'.auditTrail = [e])) := by
  intro r' hmem
  rcases mem_commit_cases hsplit hmem with rfl | h
  · obtain ⟨e, het, htr⟩ := htrail
    have hamem : a ∈ s.requests := by rw [hsplit]; simp
    refine Or.inr ⟨e, het, Or.inl ⟨a, hamem, hid.symm, htr, ?_⟩⟩
    intro e' he'
    calc e'.timestamp ≤ now := hmono a hamem e' he'
      _ = e.timestamp := het.symm
  · exact Or.inl ⟨r', h, rfl, rfl⟩

theorem audit_shape_append {s : Store} {b : MaterialRequest} {now : Nat}
    (htrail : ∃ e, e.timestamp = now ∧ b.auditTrail = [e]) :
    ∀ r' ∈ s.requests ++ [b],
      (∃ r ∈ s.requests, r.id = r'.id ∧ r'.auditTrail = r.auditTrail)
      ∨ (∃ e, e.timestamp = now
          ∧ ((∃ r ∈ s.requests, r.id = r'.id ∧ r'.auditTrail = r.auditTrail ++ [e]
                ∧ ∀ e' ∈ r.auditTrail, e'.timestamp ≤ e.timestamp)
             ∨ r'.auditTrail = [e])) := by
  intro r' hmem
  rcases List.mem_append.mp hmem with h | h
  · exact Or.inl ⟨r', h, rfl, rfl⟩
  · rw [List.mem_singleton] at h
    subst h
    obtain ⟨e, het, htr⟩ := htrail
    exact Or.inr ⟨e, het, Or.inr htr⟩

/-- C6: every committed step appends exactly one audit entry to the whole
store; for each stored request the trail is untouched or extended by
exactly one entry at its end, stamped with the step's clock value, which
(for a monotone clock) is at least every earlier timestamp of that
request. -/
theorem audit_append_exactly_one (now : Nat) (s s' : Store) (hstep : Step now s s')
    (hmono : ∀ r ∈ s.requests, ∀ e ∈ r.auditTrail, e.timestamp ≤ now) :
    totalAudit s' = totalAudit s + 1
    ∧ ∀ r' ∈ s'.requests,
        (∃ r ∈ s.requests, r.id = r'.id ∧ r'.auditTrail = r.auditTrail)
        ∨ (∃ e, e.timestamp = now
            ∧ ((∃ r ∈ s.requests, r.id = r'.id ∧ r'.auditTrail = r.auditTrail ++ [e]
                  ∧ ∀ e' ∈ r.auditTrail, e'.timestamp ≤ e.timestamp)
               ∨ r'.auditTrail = [e])) := by
  cases hstep with
  | create user form cc cp genId auditId hrole hfresh =>
    rw [requestSubmit_create_eq s user form cc cp genId now auditId hfresh]
    have htrail : ({ resolveCustom form cc cp (requestDataOf none user form genId) with
        auditTrail := [mkEntry (requestAudit RequestMode.create user now) auditId] }
          : MaterialRequest).auditTrail
        = [mkEntry (requestAudit RequestMode.create user now) auditId] := rfl
    constructor
    · have : totalAudit { dropdownEffects form cc cp s with
          requests := s.requests ++
            [{ resolveCustom form cc cp (requestDataOf none user form genId) with
               auditTrail := [mkEntry (requestAudit RequestMode.create user now) auditId] }] }
          = totalAudit { s with requests := s.requests ++
            [{ resolveCustom form cc cp (requestDataOf none user form genId) with
               auditTrail := [mkEntry (requestAudit RequestMode.create user now) auditId] }] } :=
        rfl
      rw [this, totalAudit_append (by rw [htrail]; rfl)]
    · exact audit_shape_append ⟨mkEntry (requestAudit RequestMode.create user now) auditId,
        rfl, htrail⟩
  | edit req user form cc cp genId auditId hrole hfind =>
    obtain ⟨l₁, l₂, hloc⟩ := findRequest_located hfind
    rw [requestSubmit_edit_eq s req RequestMode.edit user form cc cp genId now auditId hloc]
    constructor
    · have heq : totalAudit { dropdownEffects form cc cp s with
          requests := l₁ ++ ({ resolveCustom form cc cp req with
            auditTrail := req.auditTrail
              ++ [mkEntry (requestAudit RequestMode.edit user now) auditId] }) :: l₂ }
          = totalAudit { s with
              requests := l₁ ++ ({ resolveCustom form cc cp req with
                auditTrail := req.auditTrail
                  ++ [mkEntry (requestAudit RequestMode.edit user now) auditId] }) :: l₂ } := rfl
      rw [heq, totalAudit_commit hloc.split (by simp)]
    · exact audit_shape_commit hloc.split (resolveCustom_id form cc cp req)
        ⟨mkEntry (requestAudit RequestMode.edit user now) auditId, rfl, rfl⟩ hmono
  | cmkDecide req user decision plant quantityRevised reason auditId s2 hfind hview hok =>
    obtain ⟨l₁, l₂, hloc⟩ := findRequest_located hfind
    rw [cmkReviewSubmit_ok hok,
      commitA hloc (cmkUpd req user decision plant quantityRevised reason now)
        (cmkAudit user decision plant reason now) auditId rfl]
    exact ⟨totalAudit_commit hloc.split (by simp [cmkUpd]),
      audit_shape_commit hloc.split rfl
        ⟨mkEntry (cmkAudit user decision plant reason now) auditId, rfl, rfl⟩ hmono⟩
  | ppcEnter req user prNumber materialCode description auditId s2 hfind hview hok =>
    obtain ⟨l₁, l₂, hloc⟩ := findRequest_located hfind
    rw [ppcSubmit_ok hok,
      commitA hloc (ppcUpd user prNumber materialCode description now)
        (ppcAudit user prNumber materialCode now) auditId rfl]
    exact ⟨totalAudit_commit hloc.split (by simp [ppcUpd]),
      audit_shape_commit hloc.split rfl
        ⟨mkEntry (ppcAudit user prNumber materialCode now) auditId, rfl, rfl⟩ hmono⟩
  | procurementAct req user action orderType estimatedDelivery remarks auditId s2 hfind hview hok =>
    obtain ⟨l₁, l₂, hloc⟩ := findRequest_located hfind
    rcases procurementSubmit_ok hok with heq | heq <;> rw [heq, commitB hloc _ _ _]
    · exact ⟨totalAudit_commit hloc.split (by simp [procOrderUpd]),
        audit_shape_commit hloc.split rfl
          ⟨mkEntry (procOrderAudit user orderType estimatedDelivery now) auditId, rfl, rfl⟩ hmono⟩
    · exact ⟨totalAudit_commit hloc.split (by simp [procDeliverUpd]),
        audit_shape_commit hloc.split rfl
          ⟨mkEntry (procDeliverAudit user now) auditId, rfl, rfl⟩ hmono⟩
  | evaluationAct req user action received completionDate report auditId s2 hfind hview hok =>
    obtain ⟨l₁, l₂, hloc⟩ := findRequest_located hfind
    rcases evaluationSubmit_ok hok with heq | heq <;> rw [heq, commitB hloc _ _ _]
    · exact ⟨totalAudit_commit hloc.split (by simp [evalReceiveUpd]),
        audit_shape_commit hloc.split rfl
          ⟨mkEntry (evalReceiveAudit user completionDate now) auditId, rfl, rfl⟩ hmono⟩
    · exact ⟨totalAudit_commit hloc.split (by simp [evalReportUpd]),
        audit_shape_commit hloc.split rfl
          ⟨mkEntry (evalReportAudit user now) auditId, rfl, rfl⟩ hmono⟩
  | finalReview req user decision comments reason auditId s2 hfind hview hok =>
    obtain ⟨l₁, l₂, hloc⟩ := findRequest_located hfind
    rw [finalCmkSubmit_ok hloc hok,
      commitA hloc (finalUpd user decision comments reason now)
        (finalAudit user decision comments reason now) auditId rfl]
    exact ⟨totalAudit_commit hloc.split (by simp [finalUpd]),
      audit_shape_commit hloc.split rfl
        ⟨mkEntry (finalAudit user decision comments reason now) auditId, rfl, rfl⟩ hmono⟩

/-- C6 witness: creating a request into the empty store grows the total
audit count from 0 to 1. -/
theorem audit_append_exactly_one_witness :
    totalAudit (requestSubmit emptyStore none RequestMode.create requestorUser sampleForm
      "" "" "R1" 1 "a1") = totalAudit emptyStore + 1 :=
  (audit_append_exactly_one 1 emptyStore
    (requestSubmit emptyStore none RequestMode.create requestorUser sampleForm "" "" "R1" 1 "a1")
    (Step.create emptyStore requestorUser sampleForm "" "" "R1" "a1" rfl (by decide))
    (by intro r hr; exact absurd hr (by simp [emptyStore]))).1

end MaterialTrial
